import Mathlib

/-!
# govoipms, package v1: the VOIP client core (`v1/voipclient.go`)

A shallow embedding of `VOIPClient.Call`, `VOIPClient.Get`, `VOIPClient.Post` and
`WriteStruct`, followed by theorems about them.

The Go standard library is not part of the repository.  Its pieces are either passed in
through the environment `Env` (URL parsing and printing, query escaping, the HTTP transport,
the JSON scanner and unmarshaller, `unicode.ToLower`) or written out here when their
behaviour is short (`strings.TrimSuffix`, `url.Values.Add`, `url.Values.Encode`,
`io.ReadAll`, the read loop of `json.Decoder`).
-/

namespace GoVoipms

/-! ## Go values -/

/-- Go `error` value, identified by the text `Error()` reports. -/
structure GoError where
  msg : String
deriving DecidableEq, Repr

/-- Go `errors.New`. -/
def errorsNew (s : String) : GoError := ⟨s⟩

/-- How a Go function call ends: it returns its `error` result (`none` is `nil`), or it
panics. -/
inductive Outcome where
  | returned (err : Option GoError)
  | panicked (msg : String)
deriving DecidableEq, Repr

/-- Message of the runtime panic raised by a nil pointer dereference. -/
def nilDeref : String := "runtime error: invalid memory address or nil pointer dereference"

/-- The struct `VOIPClient` (lines 17-22). -/
structure VOIPClient where
  URL : String
  Username : String
  Password : String
  Debug : Bool
deriving DecidableEq, Repr

/-- The constructor `NewVOIPClient` (lines 46-48). -/
def NewVOIPClient (url username password : String) (debug : Bool) : VOIPClient :=
  ⟨url, username, password, debug⟩

/-! ## Strings -/

/-- The double quote character. -/
def dquote : Char := Char.ofNat 34

/-- The backslash character. -/
def backslash : Char := Char.ofNat 92

/-- The single quote character. -/
def squote : Char := Char.ofNat 39

/-- The opening brace. -/
def lbrace : Char := Char.ofNat 123

/-- The closing brace. -/
def rbrace : Char := Char.ofNat 125

/-- Go `strings.TrimSuffix`: drop `suffix` from the end of `s` when `s` ends with it. -/
def trimSuffix (s suffix : String) : String :=
  if suffix.data.isSuffixOf s.data then
    String.mk (s.data.take (s.data.length - suffix.data.length))
  else s

/-- Go `strings.ToLower`, which maps every rune through `unicode.ToLower`; the rune map is
the argument `lower`. -/
def toLower (lower : Char → Char) (s : String) : String :=
  String.mk (s.data.map lower)

/-! ## The form encoder: `WriteStruct` -/

/-- The dynamic value of a struct member: a plain `string`, or anything for which line 185
panics (a value of another type, or a member that is not exported). -/
inductive GoValue where
  | str (s : String)
  | other
deriving DecidableEq, Repr

/-- One member of a payload struct as reflection shows it: its Go name, what
`Tag.Get("json")` returns for it (the empty string when there is no json tag) and its
value. -/
structure Member where
  Name : String
  Tag : String
  Value : GoValue
deriving DecidableEq, Repr

/-- What `reflect.Indirect(reflect.ValueOf(i))` finds: a struct with its members in
declaration order, or something that is not a struct (`NumField` panics). -/
inductive Payload where
  | struct (ms : List Member)
  | notStruct
deriving DecidableEq, Repr

/-- One multipart form field: name and value. -/
abbrev Field := String × String

/-- State of a `multipart.Writer`, at the level of whole fields: the fields accepted so
far, in order, and the number of `WriteField` calls made. -/
structure Writer where
  fields : List Field := []
  attempts : Nat := 0
deriving DecidableEq, Repr

/-- Go `multipart.Writer.WriteField`.  The underlying `io.Writer` is described by `refuse`:
`refuse k = some e` when the `k`-th call (counted from 0) fails with `e`.  A refused field is
not recorded; fields accepted earlier stay. -/
def WriteField (refuse : Nat → Option GoError) (w : Writer) (name value : String) :
    Writer × Option GoError :=
  match refuse w.attempts with
  | some e => ({ w with attempts := w.attempts + 1 }, some e)
  | none => ({ fields := w.fields ++ [(name, value)], attempts := w.attempts + 1 }, none)

/-- Field name derivation, lines 180-183: the json tag with a trailing `,omitempty`
trimmed, and when that is empty the lower-cased member name. -/
def fieldName (lower : Char → Char) (m : Member) : String :=
  let name := trimSuffix m.Tag ",omitempty"
  if name = "" then toLower lower m.Name else name

/-- The loop of `WriteStruct`, lines 176-190, over the members still to write. -/
def writeMembers (lower : Char → Char) (refuse : Nat → Option GoError) :
    Writer → List Member → Writer × Outcome
  | w, [] => (w, .returned none)
  | w, m :: ms =>
    let name := fieldName lower m
    match m.Value with
    | .other => (w, .panicked "interface conversion: interface \x7b\x7d is not string")
    | .str value =>
      match WriteField refuse w name value with
      | (w1, some err) => (w1, .returned (some err))
      | (w1, none) => writeMembers lower refuse w1 ms

/-- The function `WriteStruct` (lines 173-193). -/
def WriteStruct (lower : Char → Char) (refuse : Nat → Option GoError) (writer : Writer) :
    Payload → Writer × Outcome
  | .notStruct => (writer, .panicked "reflect: call of reflect.Value.NumField on non-struct Value")
  | .struct ms => writeMembers lower refuse writer ms

/-- The member is a plain `string`. -/
def Member.isString (m : Member) : Bool :=
  match m.Value with
  | .str _ => true
  | .other => false

/-- The string a plain-string member carries (empty for another type). -/
def Member.text (m : Member) : String :=
  match m.Value with
  | .str s => s
  | .other => ""

/-! ## Query parameters: `url.Values` -/

/-- Go `url.Values`, a `map[string][]string`: a finite map from names to value lists. -/
abbrev Values := AList (fun _ : String => List String)

/-- Go map read `v[key]`: the value list, empty when the key is absent. -/
def Values.lookupAll (v : Values) (key : String) : List String :=
  (v.lookup key).getD []

/-- Go `url.Values.Add`: `v[key] = append(v[key], value)`. -/
def Values.Add (v : Values) (key value : String) : Values :=
  v.insert key (Values.lookupAll v key ++ [value])

/-- Go string order (bytewise, which for UTF-8 is the order of code points), strict. -/
def strLt : List Char → List Char → Bool
  | [], [] => false
  | [], _ :: _ => true
  | _ :: _, [] => false
  | a :: as, b :: bs => if a.toNat < b.toNat then true else if b.toNat < a.toNat then false else strLt as bs

/-- Go string order, non-strict. -/
def strLe (a b : String) : Prop := strLt b.data a.data = false

instance : DecidableRel strLe := fun a b => inferInstanceAs (Decidable (strLt b.data a.data = false))

/-- The keys of the map in the order `slices.Sort(keys)` leaves them. -/
def Values.sortedKeys (v : Values) : List String :=
  List.insertionSort strLe v.keys

/-- The (name, value) pairs in the order `Encode` writes them: keys sorted, and for each key
its values in slice order. -/
def Values.encodePairs (v : Values) : List (String × String) :=
  (Values.sortedKeys v).flatMap (fun k => (Values.lookupAll v k).map (fun x => (k, x)))

/-- Go `url.Values.Encode`; `escape` is `url.QueryEscape`. -/
def Values.Encode (escape : String → String) (v : Values) : String :=
  String.intercalate "&" ((Values.encodePairs v).map (fun p => escape p.1 ++ "=" ++ escape p.2))

/-! ## Requests and responses -/

/-- Go `url.URL`, reduced to the one component `Get` assigns (`RawQuery`) and the rest. -/
structure URL where
  Base : String
  RawQuery : String
deriving DecidableEq, Repr

/-- The multipart body `Post` builds: the boundary and the fields written into it. -/
structure FormBody where
  boundary : String
  fields : List Field
deriving DecidableEq, Repr

/-- Go `http.Request`.  `Target` is the URL string that was handed to `http.NewRequest`. -/
structure Request where
  Method : String
  Target : String
  URL : URL
  Header : List (String × String)
  Body : Option FormBody
deriving DecidableEq, Repr

/-- Go `http.Header.Set`: the value replaces what the header held under that key. -/
def Request.setHeader (req : Request) (key value : String) : Request :=
  { req with Header := (key, value) :: req.Header.filter (fun kv => kv.1 ≠ key) }

/-- A response body as an `io.Reader` delivers it: the data of the successive `Read` calls,
and how the stream ends, `none` for `io.EOF` and `some e` for a read error `e`. -/
structure Body where
  chunks : List (List Char)
  failure : Option GoError
deriving DecidableEq, Repr

/-- Go `http.Response`: status code, status text (such as `"200 OK"`) and body. -/
structure Response where
  StatusCode : Int
  Status : String
  Body : Body
deriving DecidableEq, Repr

/-- What `http.Client.Do` returns: a response and a nil error, or an error (with which a
response may still come, as after a refused redirect). -/
inductive DoResult where
  | ok (resp : Response)
  | fail (resp : Option Response) (err : GoError)
deriving DecidableEq, Repr

/-- Go `io.ReadAll`: everything the stream delivers, and the read error if it ends in one
(`io.EOF` is not reported as an error). -/
def ReadAll (b : Body) : List Char × Option GoError :=
  (b.chunks.flatten, b.failure)

/-- Go `bytes.NewReader(b)` wrapped in `ioutil.NopCloser`: a stream that delivers `b` and
then `io.EOF`.  It is written as one read; `readValue_flatten` shows that the decoder finds
the same value however the bytes are cut into reads. -/
def replay (b : List Char) : Body :=
  ⟨[b], none⟩

/-! ## The JSON decoder's read loop -/

/-- The scan codes of `encoding/json` (`scanner.go`). -/
inductive Code where
  | scanContinue | scanBeginLiteral | scanBeginObject | scanObjectKey | scanObjectValue
  | scanEndObject | scanBeginArray | scanArrayValue | scanEndArray | scanSkipSpace
  | scanEnd | scanError
deriving DecidableEq, Repr

/-- The scanner of `encoding/json` seen from `Decoder.readValue`: a state machine over
bytes.  `step` is `dec.scan.step(&dec.scan, c)`, `endValue` is `stateEndValue(&dec.scan, c)`
and `err` is `dec.scan.err`. -/
structure Scanner (S : Type) where
  reset : S
  step : S → Char → S × Code
  endValue : S → Char → S × Code
  err : S → GoError

/-- Result of scanning the bytes read so far. -/
inductive Scanned (S : Type) where
  | done (n : Nat)
  | fail (e : GoError)
  | more (s : S) (n : Nat)

/-- The inner loop of `Decoder.readValue`: look in the newly read bytes for the end of the
value.  `n` counts the bytes already scanned. -/
def scanBytes {S : Type} (sc : Scanner S) : S → Nat → List Char → Scanned S
  | s, n, [] => .more s n
  | s, n, c :: cs =>
    match sc.step s c with
    | (_, .scanEnd) => .done n
    | (s1, .scanEndObject) =>
      match sc.endValue s1 ' ' with
      | (_, .scanEnd) => .done (n + 1)
      | (s2, _) => scanBytes sc s2 (n + 1) cs
    | (s1, .scanEndArray) =>
      match sc.endValue s1 ' ' with
      | (_, .scanEnd) => .done (n + 1)
      | (s2, _) => scanBytes sc s2 (n + 1) cs
    | (s1, .scanError) => .fail (sc.err s1)
    | (s1, _) => scanBytes sc s1 (n + 1) cs

/-- Go `isSpace` of `encoding/json`. -/
def isSpace (c : Char) : Bool :=
  c == ' ' || c == Char.ofNat 9 || c == Char.ofNat 13 || c == Char.ofNat 10

/-- Go `nonSpace` of `encoding/json`: the buffer holds a byte that is not white space. -/
def nonSpace (b : List Char) : Bool :=
  b.any (fun c => !isSpace c)

/-- Go `Decoder.readValue` on a fresh decoder: read chunk after chunk into the buffer `buf`
until the scanner sees the end of the first JSON value; a read error is looked at only after
the bytes that came before it have been scanned.  Returns the length of the value and the
buffer. -/
def readValue {S : Type} (sc : Scanner S) :
    S → Nat → List Char → List (List Char) → Option GoError → Except GoError (Nat × List Char)
  | s, n, buf, chunk :: rest, failure =>
    match scanBytes sc s n chunk with
    | .done k => .ok (k, buf ++ chunk)
    | .fail e => .error e
    | .more s1 n1 => readValue sc s1 n1 (buf ++ chunk) rest failure
  | _, _, _, [], some e => .error e
  | s, n, buf, [], none =>
    match sc.step s ' ' with
    | (_, .scanEnd) => .ok (n, buf)
    | _ => if nonSpace buf then .error ⟨"unexpected EOF"⟩ else .error ⟨"EOF"⟩

/-! ## The environment -/

/-- What the program takes from outside the repository, for scanner states `S` and a
response target of Go type `T`. -/
structure Env (S T : Type) where
  /-- Go `url.Parse` -/
  parseURL : String → Except GoError URL
  /-- Go `(*url.URL).String` -/
  urlString : URL → String
  /-- Go `url.QueryEscape` -/
  queryEscape : String → String
  /-- Go `unicode.ToLower` -/
  toLowerRune : Char → Char
  /-- the boundary `multipart.NewWriter` draws -/
  boundary : String
  /-- which `WriteField` calls the writer refuses; `bytes.Buffer` refuses none -/
  refuse : Nat → Option GoError
  /-- Go `http.Client.Do` -/
  transport : Request → DoResult
  /-- Go `httputil.DumpRequest(req, true)`, as a string -/
  dumpRequest : Request → String
  /-- how `log.Println` prints a response -/
  showResponse : Response → String
  /-- the scanner of `encoding/json` -/
  scanner : Scanner S
  /-- Go `decodeState.unmarshal` into a target of type `T`: the target afterwards and the
  error, from the bytes of one JSON value -/
  unmarshal : List Char → T → T × Option GoError
  /-- the method `GetStatus` when `T` implements `StatusResp`, else `none` -/
  getStatus : Option (T → String)

/-- Go `http.NewRequest` for the methods used here (`GET`, `POST`): it fails exactly when
`url.Parse` rejects the URL string. -/
def NewRequest {S T : Type} (env : Env S T) (method url : String) (body : Option FormBody) :
    Except GoError Request :=
  match env.parseURL url with
  | .error e => .error e
  | .ok u => .ok ⟨method, url, u, [], body⟩

/-- Go `json.NewDecoder(body).Decode(target)`: read the first JSON value off the stream and
unmarshal it. -/
def Decode {S T : Type} (env : Env S T) (body : Body) (target : T) : T × Option GoError :=
  match readValue env.scanner env.scanner.reset 0 [] body.chunks body.failure with
  | .error e => (target, some e)
  | .ok (n, buf) => env.unmarshal (buf.take n) target

/-! ## `Call`, `Get`, `Post` -/

/-- What `Call` leaves behind: its two results, the target and the lines it logged. -/
structure CallResult (T : Type) where
  resp : Option Response
  err : Option GoError
  target : T
  log : List String

/-- Lines 78-83 of `Call`: decode the body into the target. -/
def decodeInto {S T : Type} (env : Env S T) (resp : Response) (body : Body) (target : T)
    (log : List String) : CallResult T :=
  match Decode env body target with
  | (t1, some e) => ⟨none, some e, t1, log⟩
  | (t1, none) => ⟨some resp, none, t1, log⟩

/-- The method `VOIPClient.Call` (lines 50-84). -/
def Call {S T : Type} (env : Env S T) (c : VOIPClient) (req : Request) (respStruct : T) :
    CallResult T :=
  let log0 := if c.Debug then [env.dumpRequest req] else []
  match env.transport req with
  | .fail resp err => ⟨resp, some err, respStruct, log0⟩
  | .ok resp =>
    if c.Debug then
      let log1 := log0 ++ ["Response: " ++ env.showResponse resp]
      match ReadAll resp.Body with
      | (_, some err) => ⟨none, some err, respStruct, log1⟩
      | (b, none) => decodeInto env resp (replay b) respStruct (log1 ++ [String.mk b])
    else
      decodeInto env resp resp.Body respStruct log0

/-- What a `Get` or `Post` leaves behind: how it ended, the target, the requests handed to
the transport and the lines logged. -/
structure Run (T : Type) where
  outcome : Outcome
  target : T
  sent : List Request
  log : List String

/-- Lines 105-119 of `Get`, the same as lines 140-154 of `Post`: return the error of
`Call`, else check the HTTP status, else the status the target reports. -/
def statusGate {S T : Type} (env : Env S T) (r : CallResult T) : Outcome :=
  match r.err with
  | some err => .returned (some err)
  | none =>
    match r.resp with
    | none => .panicked nilDeref
    | some resp =>
      if resp.StatusCode ≠ 200 then .returned (some (errorsNew resp.Status))
      else
        match env.getStatus with
        | some getStatus =>
          if getStatus r.target ≠ "success" then .returned (some (errorsNew (getStatus r.target)))
          else .returned none
        | none => .returned none

/-- Lines 93-95 of `Get`: the three mandatory parameters are added to the caller's map. -/
def addMandatory (c : VOIPClient) (method : String) (values : Values) : Values :=
  ((Values.Add values "api_username" c.Username).Add "api_password" c.Password).Add "method" method

/-- Lines 93-97 of `Get`: the parsed endpoint with its query replaced by the encoded
parameters. -/
def getURL {S T : Type} (env : Env S T) (c : VOIPClient) (method : String) (values : Values)
    (u : URL) : URL :=
  { u with RawQuery := Values.Encode env.queryEscape (addMandatory c method values) }

/-- What a `Get` leaves behind: the caller's parameter map (`none` is the nil map) and the
rest. -/
structure GetRun (T : Type) where
  values : Option Values
  run : Run T

/-- The method `VOIPClient.Get` (lines 86-120). -/
def Get {S T : Type} (env : Env S T) (c : VOIPClient) (method : String)
    (values : Option Values) (entity : T) : GetRun T :=
  match env.parseURL c.URL with
  | .error err => ⟨values, .returned (some err), entity, [], []⟩
  | .ok u =>
    match values with
    | none => ⟨none, .panicked "assignment to entry in nil map", entity, [], []⟩
    | some v =>
      let v1 := addMandatory c method v
      let u1 := getURL env c method v u
      match NewRequest env "GET" (env.urlString u1) none with
      | .error _ => ⟨some v1, .panicked nilDeref, entity, [], []⟩
      | .ok req =>
        let req1 := req.setHeader "Content-Type" "application/json"
        let r := Call env c req1 entity
        ⟨some v1, statusGate env r, r.target, [req1], r.log⟩

/-- Lines 124-129 of `Post`: a fresh writer with the three mandatory fields written, the
results of the three `WriteField` calls dropped. -/
def postHead {S T : Type} (env : Env S T) (c : VOIPClient) (method : String) : Writer :=
  let w0 : Writer := {}
  let w1 := (WriteField env.refuse w0 "api_username" c.Username).1
  let w2 := (WriteField env.refuse w1 "api_password" c.Password).1
  (WriteField env.refuse w2 "method" method).1

/-- The method `VOIPClient.Post` (lines 122-155). -/
def Post {S T : Type} (env : Env S T) (c : VOIPClient) (method : String)
    (entity : Payload) (respStruct : T) : Run T :=
  match WriteStruct env.toLowerRune env.refuse (postHead env c method) entity with
  | (_, .panicked msg) => ⟨.panicked msg, respStruct, [], []⟩
  | (_, .returned (some err)) => ⟨.returned (some err), respStruct, [], []⟩
  | (w, .returned none) =>
    -- FormDataContentType, then Close, which ends the body and whose result is dropped
    let contentType := "multipart/form-data; boundary=" ++ env.boundary
    match NewRequest env "POST" c.URL (some ⟨env.boundary, w.fields⟩) with
    | .error _ => ⟨.panicked nilDeref, respStruct, [], []⟩
    | .ok req =>
      let req1 := req.setHeader "Content-Type" contentType
      let r := Call env c req1 respStruct
      ⟨statusGate env r, r.target, [req1], r.log⟩

/-! ## The scanner of `encoding/json`

The state machine of `scanner.go`, written out so that `Call` can be run on concrete
response bodies.  The general theorems below hold for every `Scanner`. -/

/-- The step functions of `scanner.go` (`stateBeginValue`, `stateInString`, ...). -/
inductive StepFn where
  | beginValueOrEmpty | beginValue | beginStringOrEmpty | beginString | endValue | endTop
  | inString | inStringEsc | inStringEscU | inStringEscU1 | inStringEscU12 | inStringEscU123
  | neg | one | zero | dot | dot0 | expE | expSign | exp0
  | litT | litTr | litTru | litF | litFa | litFal | litFals | litN | litNu | litNul
  | failed
deriving DecidableEq, Repr

/-- The entries of the scanner's parse stack. -/
inductive ParseState where
  | parseObjectKey | parseObjectValue | parseArrayValue
deriving DecidableEq, Repr

/-- The struct `scanner` of `encoding/json`: current step function, `endTop`, the parse
stack (innermost entry first) and the error. -/
structure JsonScan where
  step : StepFn := .beginValue
  endTop : Bool := false
  parseState : List ParseState := []
  err : Option GoError := none
deriving DecidableEq, Repr

/-- Go `quoteChar`, for printable bytes. -/
def quoteChar (c : Char) : String :=
  if c = squote then "\x27\\\x27\x27"
  else if c = backslash then "\x27\\\\\x27"
  else "\x27" ++ String.singleton c ++ "\x27"

/-- Go `scanner.error`. -/
def JsonScan.fail (s : JsonScan) (c : Char) (context : String) : JsonScan × Code :=
  ({ s with step := .failed,
            err := some ⟨"invalid character " ++ quoteChar c ++ " " ++ context⟩ }, .scanError)

/-- Go `stateEndTop`. -/
def stateEndTop (s : JsonScan) (c : Char) : JsonScan × Code :=
  if isSpace c then (s, .scanEnd) else ((s.fail c "after top-level value").1, .scanEnd)

/-- Go `scanner.popParseState`. -/
def popParseState (s : JsonScan) : JsonScan :=
  match s.parseState.tail with
  | [] => { s with parseState := [], step := .endTop, endTop := true }
  | ps => { s with parseState := ps, step := .endValue }

/-- Go `scanner.pushParseState`. -/
def pushParseState (s : JsonScan) (c : Char) (ps : ParseState) (code : Code) :
    JsonScan × Code :=
  let s1 := { s with parseState := ps :: s.parseState }
  if s1.parseState.length ≤ 10000 then (s1, code) else s1.fail c "exceeded max depth"

/-- Go `stateEndValue`. -/
def stateEndValue (s : JsonScan) (c : Char) : JsonScan × Code :=
  match s.parseState with
  | [] => stateEndTop { s with step := .endTop, endTop := true } c
  | ps :: rest =>
    if isSpace c then ({ s with step := .endValue }, .scanSkipSpace)
    else
      match ps with
      | .parseObjectKey =>
        if c = ':' then
          ({ s with parseState := .parseObjectValue :: rest, step := .beginValue }, .scanObjectKey)
        else s.fail c "after object key"
      | .parseObjectValue =>
        if c = ',' then
          ({ s with parseState := .parseObjectKey :: rest, step := .beginString }, .scanObjectValue)
        else if c = rbrace then (popParseState s, .scanEndObject)
        else s.fail c "after object key:value pair"
      | .parseArrayValue =>
        if c = ',' then ({ s with step := .beginValue }, .scanArrayValue)
        else if c = ']' then (popParseState s, .scanEndArray)
        else s.fail c "after array element"

/-- Go `stateBeginValue`. -/
def stateBeginValue (s : JsonScan) (c : Char) : JsonScan × Code :=
  if isSpace c then (s, .scanSkipSpace)
  else if c = lbrace then
    pushParseState { s with step := .beginStringOrEmpty } c .parseObjectKey .scanBeginObject
  else if c = '[' then
    pushParseState { s with step := .beginValueOrEmpty } c .parseArrayValue .scanBeginArray
  else if c = dquote then ({ s with step := .inString }, .scanBeginLiteral)
  else if c = '-' then ({ s with step := .neg }, .scanBeginLiteral)
  else if c = '0' then ({ s with step := .zero }, .scanBeginLiteral)
  else if c = 't' then ({ s with step := .litT }, .scanBeginLiteral)
  else if c = 'f' then ({ s with step := .litF }, .scanBeginLiteral)
  else if c = 'n' then ({ s with step := .litN }, .scanBeginLiteral)
  else if '1' ≤ c ∧ c ≤ '9' then ({ s with step := .one }, .scanBeginLiteral)
  else s.fail c "looking for beginning of value"

/-- Go `stateBeginValueOrEmpty`. -/
def stateBeginValueOrEmpty (s : JsonScan) (c : Char) : JsonScan × Code :=
  if isSpace c then (s, .scanSkipSpace)
  else if c = ']' then stateEndValue s c
  else stateBeginValue s c

/-- Go `stateBeginString`. -/
def stateBeginString (s : JsonScan) (c : Char) : JsonScan × Code :=
  if isSpace c then (s, .scanSkipSpace)
  else if c = dquote then ({ s with step := .inString }, .scanBeginLiteral)
  else s.fail c "looking for beginning of object key string"

/-- Go `stateBeginStringOrEmpty`. -/
def stateBeginStringOrEmpty (s : JsonScan) (c : Char) : JsonScan × Code :=
  if isSpace c then (s, .scanSkipSpace)
  else if c = rbrace then
    stateEndValue { s with parseState := .parseObjectValue :: s.parseState.tail } c
  else stateBeginString s c

/-- Go `stateInString`. -/
def stateInString (s : JsonScan) (c : Char) : JsonScan × Code :=
  if c = dquote then ({ s with step := .endValue }, .scanContinue)
  else if c = backslash then ({ s with step := .inStringEsc }, .scanContinue)
  else if c.toNat < 32 then s.fail c "in string literal"
  else (s, .scanContinue)

/-- Go `stateInStringEsc`. -/
def stateInStringEsc (s : JsonScan) (c : Char) : JsonScan × Code :=
  if c = 'b' ∨ c = 'f' ∨ c = 'n' ∨ c = 'r' ∨ c = 't' ∨ c = backslash ∨ c = '/' ∨ c = dquote then
    ({ s with step := .inString }, .scanContinue)
  else if c = 'u' then ({ s with step := .inStringEscU }, .scanContinue)
  else s.fail c "in string escape code"

/-- The test for a hexadecimal digit in the four `stateInStringEscU` functions. -/
def isHex (c : Char) : Bool :=
  ('0' ≤ c ∧ c ≤ '9') || ('a' ≤ c ∧ c ≤ 'f') || ('A' ≤ c ∧ c ≤ 'F')

/-- Go `stateInStringEscU`, `stateInStringEscU1`, `stateInStringEscU12`,
`stateInStringEscU123`: one hexadecimal digit, then on to `next`. -/
def stateInStringEscHex (next : StepFn) (s : JsonScan) (c : Char) : JsonScan × Code :=
  if isHex c then ({ s with step := next }, .scanContinue)
  else s.fail c "in \\u hexadecimal character escape"

/-- Go `stateNeg`. -/
def stateNeg (s : JsonScan) (c : Char) : JsonScan × Code :=
  if c = '0' then ({ s with step := .zero }, .scanContinue)
  else if '1' ≤ c ∧ c ≤ '9' then ({ s with step := .one }, .scanContinue)
  else s.fail c "in numeric literal"

/-- Go `stateE0`. -/
def stateE0 (s : JsonScan) (c : Char) : JsonScan × Code :=
  if '0' ≤ c ∧ c ≤ '9' then (s, .scanContinue) else stateEndValue s c

/-- Go `stateESign`. -/
def stateESign (s : JsonScan) (c : Char) : JsonScan × Code :=
  if '0' ≤ c ∧ c ≤ '9' then ({ s with step := .exp0 }, .scanContinue)
  else s.fail c "in exponent of numeric literal"

/-- Go `stateE`. -/
def stateE (s : JsonScan) (c : Char) : JsonScan × Code :=
  if c = '+' ∨ c = '-' then ({ s with step := .expSign }, .scanContinue)
  else stateESign s c

/-- Go `stateDot0`. -/
def stateDot0 (s : JsonScan) (c : Char) : JsonScan × Code :=
  if '0' ≤ c ∧ c ≤ '9' then (s, .scanContinue)
  else if c = 'e' ∨ c = 'E' then ({ s with step := .expE }, .scanContinue)
  else stateEndValue s c

/-- Go `stateDot`. -/
def stateDot (s : JsonScan) (c : Char) : JsonScan × Code :=
  if '0' ≤ c ∧ c ≤ '9' then ({ s with step := .dot0 }, .scanContinue)
  else s.fail c "after decimal point in numeric literal"

/-- Go `state0`. -/
def state0 (s : JsonScan) (c : Char) : JsonScan × Code :=
  if c = '.' then ({ s with step := .dot }, .scanContinue)
  else if c = 'e' ∨ c = 'E' then ({ s with step := .expE }, .scanContinue)
  else stateEndValue s c

/-- Go `state1`. -/
def state1 (s : JsonScan) (c : Char) : JsonScan × Code :=
  if '0' ≤ c ∧ c ≤ '9' then ({ s with step := .one }, .scanContinue) else state0 s c

/-- Go `stateT`, `stateTr`, ..., `stateNul`: the next letter of a literal, then on to
`next`. -/
def stateLit (want : Char) (next : StepFn) (context : String) (s : JsonScan) (c : Char) :
    JsonScan × Code :=
  if c = want then ({ s with step := next }, .scanContinue) else s.fail c context

/-- The call `s.step(s, c)`: run the current step function on the byte `c`. -/
def jsonStep (s : JsonScan) (c : Char) : JsonScan × Code :=
  match s.step with
  | .beginValueOrEmpty => stateBeginValueOrEmpty s c
  | .beginValue => stateBeginValue s c
  | .beginStringOrEmpty => stateBeginStringOrEmpty s c
  | .beginString => stateBeginString s c
  | .endValue => stateEndValue s c
  | .endTop => stateEndTop s c
  | .inString => stateInString s c
  | .inStringEsc => stateInStringEsc s c
  | .inStringEscU => stateInStringEscHex .inStringEscU1 s c
  | .inStringEscU1 => stateInStringEscHex .inStringEscU12 s c
  | .inStringEscU12 => stateInStringEscHex .inStringEscU123 s c
  | .inStringEscU123 => stateInStringEscHex .inString s c
  | .neg => stateNeg s c
  | .one => state1 s c
  | .zero => state0 s c
  | .dot => stateDot s c
  | .dot0 => stateDot0 s c
  | .expE => stateE s c
  | .expSign => stateESign s c
  | .exp0 => stateE0 s c
  | .litT => stateLit 'r' .litTr "in literal true (expecting \x27r\x27)" s c
  | .litTr => stateLit 'u' .litTru "in literal true (expecting \x27u\x27)" s c
  | .litTru => stateLit 'e' .endValue "in literal true (expecting \x27e\x27)" s c
  | .litF => stateLit 'a' .litFa "in literal false (expecting \x27a\x27)" s c
  | .litFa => stateLit 'l' .litFal "in literal false (expecting \x27l\x27)" s c
  | .litFal => stateLit 's' .litFals "in literal false (expecting \x27s\x27)" s c
  | .litFals => stateLit 'e' .endValue "in literal false (expecting \x27e\x27)" s c
  | .litN => stateLit 'u' .litNu "in literal null (expecting \x27u\x27)" s c
  | .litNu => stateLit 'l' .litNul "in literal null (expecting \x27l\x27)" s c
  | .litNul => stateLit 'l' .endValue "in literal null (expecting \x27l\x27)" s c
  | .failed => (s, .scanError)

/-- The scanner of `encoding/json` as a `Scanner`. -/
def goScanner : Scanner JsonScan where
  reset := {}
  step := jsonStep
  endValue := stateEndValue
  err := fun s => s.err.getD ⟨""⟩

/-! ## A response type and an environment to run the program on

`BaseResp` is the repository's own response envelope.  The environment `demoEnv` fills in
the standard library with small executable stand-ins, so that `Get` and `Post` can be
evaluated on concrete inputs. -/

/-- The struct `BaseResp` (lines 28-30). -/
structure BaseResp where
  Status : String
deriving DecidableEq, Repr

/-- The method `BaseResp.GetStatus` (lines 32-34). -/
def BaseResp.GetStatus (b : BaseResp) : String := b.Status

/-- Drop leading white space. -/
def skipSpace : List Char → List Char
  | [] => []
  | c :: cs => if isSpace c then skipSpace cs else c :: cs

/-- Read a JSON string that has no escapes, from just after its opening quote: the content
and what follows the closing quote. -/
def readPlainString : List Char → Option (List Char × List Char)
  | [] => none
  | c :: cs =>
    if c = dquote then some ([], cs)
    else if c = backslash then none
    else
      match readPlainString cs with
      | some (str, rest) => some (c :: str, rest)
      | none => none

/-- Read the members of a JSON object whose values are all strings without escapes, from
just after the opening brace. -/
def readMembers : Nat → List Char → Option (List (String × String))
  | 0, _ => none
  | fuel + 1, cs =>
    match skipSpace cs with
    | [] => none
    | q :: r1 =>
      if q = rbrace then some []
      else if q ≠ dquote then none
      else
        match readPlainString r1 with
        | none => none
        | some (key, r2) =>
          match skipSpace r2 with
          | [] => none
          | colon :: r3 =>
            if colon ≠ ':' then none
            else
              match skipSpace r3 with
              | [] => none
              | q2 :: r4 =>
                if q2 ≠ dquote then none
                else
                  match readPlainString r4 with
                  | none => none
                  | some (val, r5) =>
                    match skipSpace r5 with
                    | [] => none
                    | sep :: r6 =>
                      if sep = rbrace then some [(String.mk key, String.mk val)]
                      else if sep ≠ ',' then none
                      else
                        match readMembers fuel r6 with
                        | some rest => some ((String.mk key, String.mk val) :: rest)
                        | none => none

/-- Unmarshalling into a `BaseResp`, for the JSON values that are objects of string members
without escapes: the member `status`, when there is one, is stored in `Status`.  Other JSON
values are outside this stand-in and are reported as a type error. -/
def unmarshalBaseResp (data : List Char) (target : BaseResp) : BaseResp × Option GoError :=
  match skipSpace data with
  | [] => (target, some ⟨"unexpected end of JSON input"⟩)
  | c :: cs =>
    if c ≠ lbrace then (target, some ⟨"json: cannot unmarshal into Go value of type v1.BaseResp"⟩)
    else
      match readMembers (cs.length + 1) cs with
      | none => (target, some ⟨"json: cannot unmarshal into Go value of type v1.BaseResp"⟩)
      | some members =>
        match (members.filter (fun kv => kv.1 = "status")).getLast? with
        | some kv => (⟨kv.2⟩, none)
        | none => (target, none)

/-- URL parsing stand-in: a URL string with a blank in it is rejected, any other is split
at its first question mark. -/
def demoParseURL (s : String) : Except GoError URL :=
  if s.data.contains ' ' then
    .error ⟨"parse \"" ++ s ++ "\": invalid character \" \" in host name"⟩
  else .ok ⟨String.mk (s.data.takeWhile (fun c => c ≠ '?')),
            String.mk ((s.data.dropWhile (fun c => c ≠ '?')).drop 1)⟩

/-- URL printing stand-in: the base, and the query after a question mark when there is
one. -/
def demoURLString (u : URL) : String :=
  if u.RawQuery = "" then u.Base else u.Base ++ "?" ++ u.RawQuery

/-- Hexadecimal digit, upper case. -/
def hexDigit (n : Nat) : Char :=
  "0123456789ABCDEF".data.getD n '0'

/-- Go `url.QueryEscape` on ASCII text: letters, digits and `-_.~` stay, a blank becomes
`+`, any other byte becomes `%XX`. -/
def demoQueryEscape (s : String) : String :=
  String.mk (s.data.flatMap (fun c =>
    if c = ' ' then ['+']
    else if c.isAlphanum || c = '-' || c = '_' || c = '.' || c = '~' then [c]
    else ['%', hexDigit (c.toNat / 16), hexDigit (c.toNat % 16)]))

/-- The environment used to run the program on concrete inputs: the JSON scanner of
`encoding/json`, `BaseResp` as response target, and the two parts that differ from run to
run, the transport and the writer. -/
def demoEnv (transport : Request → DoResult) (refuse : Nat → Option GoError) :
    Env JsonScan BaseResp where
  parseURL := demoParseURL
  urlString := demoURLString
  queryEscape := demoQueryEscape
  toLowerRune := Char.toLower
  boundary := "5c1c6f3ab0"
  refuse := refuse
  transport := transport
  dumpRequest := fun req => req.Method ++ " " ++ req.Target
  showResponse := fun resp => resp.Status
  scanner := goScanner
  unmarshal := unmarshalBaseResp
  getStatus := some BaseResp.GetStatus

/-- A server that answers every request with the given status line and body, the body
delivered in one piece and ended the given way. -/
def server (code : Int) (status body : String) (failure : Option GoError) :
    Request → DoResult :=
  fun _ => .ok ⟨code, status, ⟨[body.data], failure⟩⟩

/-- The writer over a `bytes.Buffer`: no write is refused. -/
def buffer : Nat → Option GoError := fun _ => none

/-- A client for the examples. -/
def demoClient (debug : Bool) : VOIPClient :=
  NewVOIPClient "https://voip.ms/api/v1/rest.php" "joe" "s3cret" debug

/-! ## Vocabulary of the statements -/

/-- The value `Get` adds under the name `k`: the username, the password or the method name
for the three mandatory names, nothing for any other name. -/
def mandatoryFor (c : VOIPClient) (method : String) (k : String) : List String :=
  if k = "api_username" then [c.Username]
  else if k = "api_password" then [c.Password]
  else if k = "method" then [method]
  else []

/-- The values written under the name `k` in a list of (name, value) pairs, in order. -/
def valuesFor (pairs : List (String × String)) (k : String) : List String :=
  (pairs.filter (fun p => p.1 = k)).map Prod.snd

/-- The writer that accepts four fields and refuses the fifth. -/
def refuseFifth : Nat → Option GoError :=
  fun k => if k = 4 then some ⟨"short write"⟩ else none

/-- A parameter map whose caller already set `method`. -/
def collidingValues : Values :=
  ((∅ : Values).insert "page" ["2"]).insert "method" ["x&"]

/-- The bytes of the JSON value `readValue` found: the first `n` bytes of the buffer. -/
def valueBytes (r : Except GoError (Nat × List Char)) : Except GoError (List Char) :=
  match r with
  | .error e => .error e
  | .ok (n, buf) => .ok (buf.take n)

/-- The request `Get` builds for the examples' client, before its header is set. -/
def demoGet (query : String) : Request :=
  ⟨"GET", "https://voip.ms/api/v1/rest.php?" ++ query,
    ⟨"https://voip.ms/api/v1/rest.php", query⟩, [], none⟩

/-- The request `Post` builds for the examples' client, before its header is set. -/
def demoPost (method : String) (fields : List Field) : Request :=
  ⟨"POST", "https://voip.ms/api/v1/rest.php", ⟨"https://voip.ms/api/v1/rest.php", ""⟩, [],
    some ⟨"5c1c6f3ab0",
      [("api_username", "joe"), ("api_password", "s3cret"), ("method", method)] ++ fields⟩⟩

/-- The JSON text of an object with the one member `status`. -/
def statusBody (status : String) : String :=
  "\x7b\"status\":\"" ++ status ++ "\"\x7d"

/-- The environment of the examples with a target type that has no status capability. -/
def plainEnv (transport : Request → DoResult) : Env JsonScan BaseResp :=
  { demoEnv transport buffer with getStatus := none }

/-- A transport that fails every exchange. -/
def deadServer : Request → DoResult :=
  fun _ => .fail none ⟨"dial tcp: connection refused"⟩

/-! # Theorems -/

/-! ## Field names -/

/-- Trimming a suffix that was appended gives back the string. -/
theorem trimSuffix_append (n suffix : String) :
    trimSuffix (n ++ suffix) suffix = n := by
  have h : (n ++ suffix).data = n.data ++ suffix.data := rfl
  unfold trimSuffix
  rw [h, if_pos (by simp)]
  simp

/-- Trimming leaves a string alone when it does not end in the suffix. -/
theorem trimSuffix_of_not_suffix (s suffix : String) (h : ¬ suffix.data <:+ s.data) :
    trimSuffix s suffix = s := by
  unfold trimSuffix
  rw [if_neg (by simpa using h)]

/-- C3, at a member whose json tag holds the qualifier alone: a tag is present, stripping
the qualifier leaves the empty string, and the field name is the lower-cased member name. -/
theorem fieldName_qualifier_only :
    (⟨"UserId", ",omitempty", .str "7"⟩ : Member).Tag ≠ "" ∧
    trimSuffix (⟨"UserId", ",omitempty", .str "7"⟩ : Member).Tag ",omitempty" = "" ∧
    fieldName Char.toLower ⟨"UserId", ",omitempty", .str "7"⟩ = "userid" ∧
    fieldName Char.toLower ⟨"UserId", ",omitempty", .str "7"⟩ ≠
      trimSuffix (⟨"UserId", ",omitempty", .str "7"⟩ : Member).Tag ",omitempty" := by
  decide

/-- C3 as amended: the field name is the json tag without a trailing `,omitempty` when that
leaves a non-empty name, the tag itself when it is non-empty and does not end in
`,omitempty`, and the member name in lower case when the tag is absent, empty or
`,omitempty` alone. -/
theorem fieldName_spec (lower : Char → Char) (m : Member) (n : String) :
    (n ≠ "" → m.Tag = n ++ ",omitempty" → fieldName lower m = n) ∧
    (m.Tag ≠ "" → ¬ (",omitempty" : String).data <:+ m.Tag.data → fieldName lower m = m.Tag) ∧
    (m.Tag = "" ∨ m.Tag = ",omitempty" → fieldName lower m = String.mk (m.Name.data.map lower)) := by
  refine ⟨?_, ?_, ?_⟩
  · intro hn ht
    simp only [fieldName, ht, trimSuffix_append, if_neg hn]
  · intro hne hsuf
    simp only [fieldName, trimSuffix_of_not_suffix _ _ hsuf, if_neg hne]
  · rintro (h | h)
    · simp only [fieldName, h]
      rfl
    · simp only [fieldName, h]
      rfl

/-- C3 as amended, on the two members the specification names (tagged `foo,omitempty`, and
untagged `UserId`) and on a member tagged `foo_bar`. -/
theorem fieldName_spec_witness :
    fieldName Char.toLower ⟨"Foo", "foo,omitempty", .str "1"⟩ = "foo" ∧
    fieldName Char.toLower ⟨"Foo", "foo_bar", .str "1"⟩ = "foo_bar" ∧
    fieldName Char.toLower ⟨"UserId", "", .str "1"⟩ = "userid" :=
  ⟨(fieldName_spec Char.toLower ⟨"Foo", "foo,omitempty", .str "1"⟩ "foo").1 (by decide) rfl,
   (fieldName_spec Char.toLower ⟨"Foo", "foo_bar", .str "1"⟩ "").2.1 (by decide) (by decide),
   (fieldName_spec Char.toLower ⟨"UserId", "", .str "1"⟩ "").2.2 (Or.inl rfl)⟩

/-! ## The form encoder -/

/-- When no write is refused, the loop appends one field per member and returns nil. -/
theorem writeMembers_accepts (lower : Char → Char) (refuse : Nat → Option GoError)
    (ms : List Member) :
    ∀ w : Writer, (∀ m ∈ ms, m.isString = true) →
      (∀ j, j < ms.length → refuse (w.attempts + j) = none) →
      writeMembers lower refuse w ms =
        (⟨w.fields ++ ms.map (fun m => (fieldName lower m, m.text)), w.attempts + ms.length⟩,
          .returned none) := by
  induction ms with
  | nil => intro w _ _; simp [writeMembers]
  | cons m ms ih =>
    intro w hs hr
    have hm : m.isString = true := hs m (List.mem_cons_self _ _)
    have h0 : refuse w.attempts = none := by simpa using hr 0 (by simp)
    cases hv : m.Value with
    | other => simp [Member.isString, hv] at hm
    | str v =>
      have ht : m.text = v := by simp [Member.text, hv]
      simp only [writeMembers, hv, WriteField, h0]
      rw [ih _ (fun x hx => hs x (List.mem_cons_of_mem _ hx))
        (fun j hj => by
          have := hr (j + 1) (by simpa using hj)
          simpa [Nat.add_assoc, Nat.add_comm 1 j] using this)]
      simp [ht, Nat.add_assoc, Nat.add_comm 1]

/-- When the write of member `k` is the first refused, the loop stops there with that error. -/
theorem writeMembers_refused (lower : Char → Char) (refuse : Nat → Option GoError)
    (ms : List Member) (e : GoError) :
    ∀ (k : Nat) (w : Writer), (∀ m ∈ ms, m.isString = true) → k < ms.length →
      (∀ j, j < k → refuse (w.attempts + j) = none) → refuse (w.attempts + k) = some e →
      writeMembers lower refuse w ms =
        (⟨w.fields ++ (ms.take k).map (fun m => (fieldName lower m, m.text)), w.attempts + k + 1⟩,
          .returned (some e)) := by
  induction ms with
  | nil => intro k w _ hk; simp at hk
  | cons m ms ih =>
    intro k w hs hk hr he
    have hm : m.isString = true := hs m (List.mem_cons_self _ _)
    cases hv : m.Value with
    | other => simp [Member.isString, hv] at hm
    | str v =>
      have ht : m.text = v := by simp [Member.text, hv]
      cases k with
      | zero =>
        have h0 : refuse w.attempts = some e := by simpa using he
        simp [writeMembers, hv, WriteField, h0]
      | succ k =>
        have h0 : refuse w.attempts = none := by simpa using hr 0 (by simp)
        simp only [writeMembers, hv, WriteField, h0]
        rw [ih k _ (fun x hx => hs x (List.mem_cons_of_mem _ hx)) (by simpa using hk)
          (fun j hj => by
            have := hr (j + 1) (by omega)
            simpa [Nat.add_assoc, Nat.add_comm 1 j] using this)
          (by simpa [Nat.add_assoc, Nat.add_comm 1 k] using he)]
        simp [ht, Nat.add_assoc, Nat.add_comm 1]

/-- Over a writer that refuses nothing, `Post` starts its body with the three mandatory
fields. -/
theorem postHead_buffer {S T : Type} (env : Env S T) (c : VOIPClient) (method : String)
    (hbuf : ∀ k, env.refuse k = none) :
    postHead env c method =
      ⟨[("api_username", c.Username), ("api_password", c.Password), ("method", method)], 3⟩ := by
  simp [postHead, WriteField, hbuf]

/-- C4: with a writer that refuses nothing (the `bytes.Buffer` of `Post`) and a payload of
`N` plain-string members, `WriteStruct` appends exactly `N` fields, one per member in
declaration order, each with the member's derived name and its string value; and the body of
the request `Post` sends holds `N + 3` fields: `api_username`, `api_password` and `method`
first, then the `N` payload fields. -/
theorem post_fields {S T : Type} (env : Env S T) (c : VOIPClient) (method : String)
    (ms : List Member) (respStruct : T) (u : URL) (w : Writer)
    (hbuf : ∀ k, env.refuse k = none)
    (hs : ∀ m ∈ ms, m.isString = true)
    (hu : env.parseURL c.URL = .ok u) :
    WriteStruct env.toLowerRune env.refuse w (.struct ms) =
        (⟨w.fields ++ ms.map (fun m => (fieldName env.toLowerRune m, m.text)),
          w.attempts + ms.length⟩, .returned none) ∧
    (WriteStruct env.toLowerRune env.refuse w (.struct ms)).1.fields.length =
        w.fields.length + ms.length ∧
    ∃ req fields, (Post env c method (.struct ms) respStruct).sent = [req] ∧
      req.Method = "POST" ∧
      req.Body = some ⟨env.boundary, fields⟩ ∧
      fields = [("api_username", c.Username), ("api_password", c.Password), ("method", method)]
        ++ ms.map (fun m => (fieldName env.toLowerRune m, m.text)) ∧
      fields.length = ms.length + 3 := by
  have hw : ∀ w : Writer, WriteStruct env.toLowerRune env.refuse w (.struct ms) =
      (⟨w.fields ++ ms.map (fun m => (fieldName env.toLowerRune m, m.text)),
        w.attempts + ms.length⟩, .returned none) :=
    fun w => writeMembers_accepts _ _ ms w hs (fun j _ => hbuf _)
  refine ⟨hw w, by rw [hw w]; simp, ?_⟩
  refine ⟨(⟨"POST", c.URL, u, [], some ⟨env.boundary,
      [("api_username", c.Username), ("api_password", c.Password), ("method", method)]
        ++ ms.map (fun m => (fieldName env.toLowerRune m, m.text))⟩⟩ : Request).setHeader
      "Content-Type" ("multipart/form-data; boundary=" ++ env.boundary), _, ?_, rfl, rfl, rfl,
      by simp⟩
  simp only [Post, hw, NewRequest, hu, postHead_buffer env c method hbuf]

/-- C4 on the example of the specification: `Post("create_user", &payload{Name:"bob"},
&target)` sends the fields `api_username`, `api_password`, `method=create_user`,
`name=bob`. -/
theorem post_fields_witness :
    ∃ req fields,
      (Post (demoEnv (server 200 "200 OK" "\x7b\"status\":\"success\"\x7d" none) buffer)
        (demoClient false) "create_user" (.struct [⟨"Name", "", .str "bob"⟩])
        (⟨""⟩ : BaseResp)).sent = [req] ∧
      req.Method = "POST" ∧
      req.Body = some ⟨"5c1c6f3ab0", fields⟩ ∧
      fields = [("api_username", "joe"), ("api_password", "s3cret"), ("method", "create_user")]
        ++ [("name", "bob")] ∧
      fields.length = 1 + 3 :=
  (post_fields (demoEnv (server 200 "200 OK" "\x7b\"status\":\"success\"\x7d" none) buffer)
    (demoClient false) "create_user" [⟨"Name", "", .str "bob"⟩] (⟨""⟩ : BaseResp)
    ⟨"https://voip.ms/api/v1/rest.php", ""⟩ {} (fun _ => rfl) (by decide) rfl).2.2

/-- C8: when the writer accepts the first `k` fields of a payload of plain-string members
and refuses the next one with `e`, `WriteStruct` returns `e`, the `k` accepted fields stay
written and no further write is attempted (`k + 1` writes in all); and when `WriteStruct`
returns an error inside `Post`, `Post` returns that error and hands no request to the
transport. -/
theorem writeStruct_refused {S T : Type} (env : Env S T) (c : VOIPClient) (method : String)
    (entity : Payload) (respStruct : T) (lower : Char → Char) (refuse : Nat → Option GoError)
    (w : Writer) (ms : List Member) (k : Nat) (e : GoError) :
    ((∀ m ∈ ms, m.isString = true) → k < ms.length →
      (∀ j, j < k → refuse (w.attempts + j) = none) → refuse (w.attempts + k) = some e →
      WriteStruct lower refuse w (.struct ms) =
        (⟨w.fields ++ (ms.take k).map (fun m => (fieldName lower m, m.text)),
          w.attempts + k + 1⟩, .returned (some e))) ∧
    (∀ w1, WriteStruct env.toLowerRune env.refuse (postHead env c method) entity
        = (w1, .returned (some e)) →
      (Post env c method entity respStruct).outcome = .returned (some e) ∧
      (Post env c method entity respStruct).sent = [] ∧
      (Post env c method entity respStruct).target = respStruct) := by
  refine ⟨fun hs hk hr he => writeMembers_refused lower refuse ms e k w hs hk hr he, ?_⟩
  intro w1 h
  simp [Post, h]

/-- C8 on a payload of three members whose second field the writer refuses: the first
stays written, the third is never attempted, and `Post` sends nothing. -/
theorem writeStruct_refused_witness :
    WriteStruct Char.toLower refuseFifth ⟨[("method", "m")], 3⟩
        (.struct [⟨"Name", "", .str "bob"⟩, ⟨"Mail", "email,omitempty", .str "b@x"⟩,
          ⟨"Note", "", .str "hi"⟩]) =
      (⟨[("method", "m"), ("name", "bob")], 5⟩, .returned (some ⟨"short write"⟩)) ∧
    (Post (demoEnv (server 200 "200 OK" "" none) refuseFifth) (demoClient false) "create_user"
        (.struct [⟨"Name", "", .str "bob"⟩, ⟨"Mail", "email,omitempty", .str "b@x"⟩])
        (⟨""⟩ : BaseResp)).outcome = .returned (some ⟨"short write"⟩) ∧
    (Post (demoEnv (server 200 "200 OK" "" none) refuseFifth) (demoClient false) "create_user"
        (.struct [⟨"Name", "", .str "bob"⟩, ⟨"Mail", "email,omitempty", .str "b@x"⟩])
        (⟨""⟩ : BaseResp)).sent = [] :=
  ⟨(writeStruct_refused (demoEnv (server 200 "200 OK" "" none) refuseFifth) (demoClient false)
      "create_user" (.struct []) (⟨""⟩ : BaseResp) Char.toLower refuseFifth ⟨[("method", "m")], 3⟩
      [⟨"Name", "", .str "bob"⟩, ⟨"Mail", "email,omitempty", .str "b@x"⟩, ⟨"Note", "", .str "hi"⟩]
      1 ⟨"short write"⟩).1 (by decide) (by decide)
      (fun j hj => by
        have hj0 : j = 0 := by omega
        subst hj0
        rfl) rfl,
   ((writeStruct_refused (demoEnv (server 200 "200 OK" "" none) refuseFifth) (demoClient false)
      "create_user"
      (.struct [⟨"Name", "", .str "bob"⟩, ⟨"Mail", "email,omitempty", .str "b@x"⟩])
      (⟨""⟩ : BaseResp) Char.toLower refuseFifth {} [] 0 ⟨"short write"⟩).2
      ⟨[("api_username", "joe"), ("api_password", "s3cret"), ("method", "create_user"),
        ("name", "bob")], 5⟩ rfl).1,
   ((writeStruct_refused (demoEnv (server 200 "200 OK" "" none) refuseFifth) (demoClient false)
      "create_user"
      (.struct [⟨"Name", "", .str "bob"⟩, ⟨"Mail", "email,omitempty", .str "b@x"⟩])
      (⟨""⟩ : BaseResp) Char.toLower refuseFifth {} [] 0 ⟨"short write"⟩).2
      ⟨[("api_username", "joe"), ("api_password", "s3cret"), ("method", "create_user"),
        ("name", "bob")], 5⟩ rfl).2.1⟩

/-! ## Query parameters -/

/-- Reading the map after `Add`. -/
theorem lookupAll_Add (v : Values) (k x k2 : String) :
    Values.lookupAll (Values.Add v k x) k2 =
      if k2 = k then Values.lookupAll v k ++ [x] else Values.lookupAll v k2 := by
  unfold Values.Add Values.lookupAll
  by_cases h : k2 = k
  · subst h
    simp
  · simp [h, AList.lookup_insert_ne h]

/-- Reading the map after the three mandatory values were added. -/
theorem lookupAll_addMandatory (c : VOIPClient) (method : String) (v : Values) (k : String) :
    Values.lookupAll (addMandatory c method v) k =
      Values.lookupAll v k ++ mandatoryFor c method k := by
  unfold addMandatory mandatoryFor
  simp only [lookupAll_Add]
  by_cases h1 : k = "api_username"
  · subst h1
    simp
  · by_cases h2 : k = "api_password"
    · subst h2
      simp
    · by_cases h3 : k = "method"
      · subst h3
        simp
      · simp [h1, h2, h3]

/-- The values written under one name, when every key is written once with its values. -/
theorem valuesFor_flatMap (f : String → List String) (k : String) (ks : List String) :
    ks.Nodup →
    valuesFor (ks.flatMap (fun a => (f a).map (fun x => (a, x)))) k =
      if k ∈ ks then f k else [] := by
  induction ks with
  | nil => intro _; simp [valuesFor]
  | cons a ks ih =>
    intro hnd
    have hnd2 := List.nodup_cons.mp hnd
    have ih2 := ih hnd2.2
    unfold valuesFor at ih2 ⊢
    rw [List.flatMap_cons, List.filter_append, List.map_append, ih2]
    by_cases hak : a = k
    · subst hak
      have hf : ((f a).map (fun x => (a, x))).filter (fun p => decide (p.1 = a))
          = (f a).map (fun x => (a, x)) := by
        rw [List.filter_eq_self]
        intro p hp
        obtain ⟨x, _, rfl⟩ := List.mem_map.mp hp
        simp
      rw [hf]
      simp [hnd2.1, Function.comp_def]
    · have hf : ((f a).map (fun x => (a, x))).filter (fun p => decide (p.1 = k)) = [] := by
        rw [List.filter_eq_nil_iff]
        intro p hp
        obtain ⟨x, _, rfl⟩ := List.mem_map.mp hp
        simp [hak]
      rw [hf]
      have hka : ¬ k = a := fun h => hak h.symm
      simp [hka]

/-- Under every name `Encode` writes exactly the values the map holds, in slice order. -/
theorem valuesFor_encodePairs (v : Values) (k : String) :
    valuesFor (Values.encodePairs v) k = Values.lookupAll v k := by
  unfold Values.encodePairs
  have hperm : (Values.sortedKeys v).Perm v.keys := List.perm_insertionSort _ _
  rw [valuesFor_flatMap _ _ _ (hperm.nodup_iff.mpr v.keys_nodup)]
  by_cases hk : k ∈ Values.sortedKeys v
  · simp [hk]
  · have hk2 : k ∉ v := fun h => hk (hperm.mem_iff.mpr (AList.mem_keys.mpr h))
    simp [hk, Values.lookupAll, AList.lookup_eq_none.mpr hk2]

/-- Every value the map holds is written by `Encode`. -/
theorem mem_encodePairs (v : Values) (k x : String) (h : x ∈ Values.lookupAll v k) :
    (k, x) ∈ Values.encodePairs v := by
  rw [← valuesFor_encodePairs v k] at h
  unfold valuesFor at h
  obtain ⟨p, hp, rfl⟩ := List.mem_map.mp h
  obtain ⟨hp1, hp2⟩ := List.mem_filter.mp hp
  have : p.1 = k := by simpa using hp2
  subst this
  exact hp1

/-- What `Get` does once the endpoint parsed and the request was built. -/
theorem get_sent {S T : Type} (env : Env S T) (c : VOIPClient) (method : String) (v : Values)
    (entity : T) (u : URL) (r0 : Request)
    (hu : env.parseURL c.URL = .ok u)
    (hr : NewRequest env "GET" (env.urlString (getURL env c method v u)) none = .ok r0) :
    Get env c method (some v) entity =
      ⟨some (addMandatory c method v),
        statusGate env (Call env c (r0.setHeader "Content-Type" "application/json") entity),
        (Call env c (r0.setHeader "Content-Type" "application/json") entity).target,
        [r0.setHeader "Content-Type" "application/json"],
        (Call env c (r0.setHeader "Content-Type" "application/json") entity).log⟩ := by
  simp only [Get, hu, hr]

/-- The request `http.NewRequest` returns. -/
theorem newRequest_ok {S T : Type} (env : Env S T) (method url : String)
    (body : Option FormBody) (r0 : Request) (h : NewRequest env method url body = .ok r0) :
    r0.Method = method ∧ r0.Target = url ∧ r0.Body = body ∧ r0.Header = [] := by
  unfold NewRequest at h
  split at h
  · cases h
  · cases h
    exact ⟨rfl, rfl, rfl, rfl⟩

/-- C5: the request `Get` sends is a GET for the endpoint with its query replaced by the
encoding of the caller's parameters and the three mandatory ones; the encoded query holds
every pair the caller supplied and the pairs `api_username`, `api_password` and `method`;
and under every name the values written are the caller's, in their order, followed by the
mandatory value when the name is one of the three. -/
theorem get_query {S T : Type} (env : Env S T) (c : VOIPClient) (method : String)
    (v : Values) (entity : T) (u : URL) (r0 : Request)
    (hu : env.parseURL c.URL = .ok u)
    (hr : NewRequest env "GET" (env.urlString (getURL env c method v u)) none = .ok r0) :
    (Get env c method (some v) entity).run.sent
      = [r0.setHeader "Content-Type" "application/json"] ∧
    r0.Method = "GET" ∧
    r0.Target = env.urlString
      ⟨u.Base, Values.Encode env.queryEscape (addMandatory c method v)⟩ ∧
    Values.Encode env.queryEscape (addMandatory c method v) =
      String.intercalate "&" ((Values.encodePairs (addMandatory c method v)).map
        (fun p => env.queryEscape p.1 ++ "=" ++ env.queryEscape p.2)) ∧
    (∀ k x, x ∈ Values.lookupAll v k → (k, x) ∈ Values.encodePairs (addMandatory c method v)) ∧
    ("api_username", c.Username) ∈ Values.encodePairs (addMandatory c method v) ∧
    ("api_password", c.Password) ∈ Values.encodePairs (addMandatory c method v) ∧
    ("method", method) ∈ Values.encodePairs (addMandatory c method v) ∧
    ∀ k, valuesFor (Values.encodePairs (addMandatory c method v)) k =
      Values.lookupAll v k ++ mandatoryFor c method k := by
  have hreq := newRequest_ok env _ _ _ _ hr
  refine ⟨by rw [get_sent env c method v entity u r0 hu hr], hreq.1, hreq.2.1, rfl, ?_, ?_, ?_, ?_, ?_⟩
  · intro k x hx
    apply mem_encodePairs
    rw [lookupAll_addMandatory]
    exact List.mem_append_left _ hx
  · apply mem_encodePairs
    rw [lookupAll_addMandatory]
    simp [mandatoryFor]
  · apply mem_encodePairs
    rw [lookupAll_addMandatory]
    simp [mandatoryFor]
  · apply mem_encodePairs
    rw [lookupAll_addMandatory]
    simp [mandatoryFor]
  · intro k
    rw [valuesFor_encodePairs, lookupAll_addMandatory]

/-- C5 on a caller that passes `page=2` and, colliding with a mandatory name, `method=x&`:
the request goes out with both `method` values, the caller's first. -/
theorem get_query_witness :
    (Get (demoEnv (server 200 "200 OK" "\x7b\"status\":\"success\"\x7d" none) buffer)
        (demoClient false) "getBalance" (some collidingValues) (⟨""⟩ : BaseResp)).run.sent
      = [⟨"GET", "https://voip.ms/api/v1/rest.php?api_password=s3cret&api_username=joe&method=x%26&method=getBalance&page=2",
          ⟨"https://voip.ms/api/v1/rest.php",
            "api_password=s3cret&api_username=joe&method=x%26&method=getBalance&page=2"⟩,
          [("Content-Type", "application/json")], none⟩] ∧
    valuesFor (Values.encodePairs (addMandatory (demoClient false) "getBalance" collidingValues))
      "method" = ["x&", "getBalance"] :=
  have h := get_query (demoEnv (server 200 "200 OK" "\x7b\"status\":\"success\"\x7d" none) buffer)
    (demoClient false) "getBalance" collidingValues (⟨""⟩ : BaseResp)
    ⟨"https://voip.ms/api/v1/rest.php", ""⟩
    ⟨"GET", "https://voip.ms/api/v1/rest.php?api_password=s3cret&api_username=joe&method=x%26&method=getBalance&page=2",
      ⟨"https://voip.ms/api/v1/rest.php",
        "api_password=s3cret&api_username=joe&method=x%26&method=getBalance&page=2"⟩, [], none⟩
    rfl rfl
  ⟨h.1, h.2.2.2.2.2.2.2.2 "method"⟩

/-- C10: with a well-formed endpoint and a non-nil map, `Get` leaves the caller's map with
every name holding its previous values in their previous order, followed by one new value
for each of `api_username`, `api_password` and `method`, whether or not the call ends in an
error; a second `Get` on the same map therefore sends, under each mandatory name, the
caller's values followed by the mandatory value of the first call and that of the second. -/
theorem get_mutates_values {S T : Type} (env : Env S T) (c : VOIPClient)
    (method method2 : String) (v : Values) (entity entity2 : T) (u : URL) (r0 : Request)
    (hu : env.parseURL c.URL = .ok u) :
    (Get env c method (some v) entity).values = some (addMandatory c method v) ∧
    (∀ k, Values.lookupAll (addMandatory c method v) k =
      Values.lookupAll v k ++ mandatoryFor c method k) ∧
    (NewRequest env "GET"
        (env.urlString (getURL env c method2 (addMandatory c method v) u)) none = .ok r0 →
      (Get env c method2 (Get env c method (some v) entity).values entity2).run.sent
        = [r0.setHeader "Content-Type" "application/json"] ∧
      r0.Target = env.urlString ⟨u.Base,
        Values.Encode env.queryEscape (addMandatory c method2 (addMandatory c method v))⟩ ∧
      ∀ k, valuesFor (Values.encodePairs (addMandatory c method2 (addMandatory c method v))) k =
        Values.lookupAll v k ++ mandatoryFor c method k ++ mandatoryFor c method2 k) := by
  have hv : (Get env c method (some v) entity).values = some (addMandatory c method v) := by
    simp only [Get, hu]
    split <;> rfl
  refine ⟨hv, lookupAll_addMandatory c method v, ?_⟩
  intro hr
  rw [hv, get_sent env c method2 _ entity2 u r0 hu hr]
  refine ⟨rfl, (newRequest_ok env _ _ _ _ hr).2.1, ?_⟩
  intro k
  rw [valuesFor_encodePairs, lookupAll_addMandatory, lookupAll_addMandatory]

/-- C10 on a caller that passes `page=2` and reuses its map for a second call: after the
first call the map holds the three mandatory values, and the second request carries each
of them twice. -/
theorem get_mutates_values_witness :
    (Get (demoEnv (server 200 "200 OK" "\x7b\"status\":\"success\"\x7d" none) buffer)
        (demoClient false) "getBalance" (some ((∅ : Values).insert "page" ["2"]))
        (⟨""⟩ : BaseResp)).values
      = some (addMandatory (demoClient false) "getBalance" ((∅ : Values).insert "page" ["2"])) ∧
    ((Get (demoEnv (server 200 "200 OK" "\x7b\"status\":\"success\"\x7d" none) buffer)
        (demoClient false) "getBalance"
        (Get (demoEnv (server 200 "200 OK" "\x7b\"status\":\"success\"\x7d" none) buffer)
          (demoClient false) "getBalance" (some ((∅ : Values).insert "page" ["2"]))
          (⟨""⟩ : BaseResp)).values
        (⟨""⟩ : BaseResp)).run.sent
      = [⟨"GET", "https://voip.ms/api/v1/rest.php?api_password=s3cret&api_password=s3cret&api_username=joe&api_username=joe&method=getBalance&method=getBalance&page=2",
          ⟨"https://voip.ms/api/v1/rest.php",
            "api_password=s3cret&api_password=s3cret&api_username=joe&api_username=joe&method=getBalance&method=getBalance&page=2"⟩,
          [("Content-Type", "application/json")], none⟩]) :=
  have h := get_mutates_values
    (demoEnv (server 200 "200 OK" "\x7b\"status\":\"success\"\x7d" none) buffer)
    (demoClient false) "getBalance" "getBalance" ((∅ : Values).insert "page" ["2"])
    (⟨""⟩ : BaseResp) (⟨""⟩ : BaseResp) ⟨"https://voip.ms/api/v1/rest.php", ""⟩
    ⟨"GET", "https://voip.ms/api/v1/rest.php?api_password=s3cret&api_password=s3cret&api_username=joe&api_username=joe&method=getBalance&method=getBalance&page=2",
      ⟨"https://voip.ms/api/v1/rest.php",
        "api_password=s3cret&api_password=s3cret&api_username=joe&api_username=joe&method=getBalance&method=getBalance&page=2"⟩,
      [], none⟩
    rfl
  ⟨h.1, (h.2.2 rfl).1⟩

/-! ## The read loop does not depend on how the stream is cut into reads -/

/-- Scanning two pieces one after the other is scanning their concatenation. -/
theorem scanBytes_append {S : Type} (sc : Scanner S) (a b : List Char) :
    ∀ (s : S) (n : Nat), scanBytes sc s n (a ++ b) =
      match scanBytes sc s n a with
      | .more s1 n1 => scanBytes sc s1 n1 b
      | .done k => .done k
      | .fail e => .fail e := by
  induction a with
  | nil => intro s n; simp [scanBytes]
  | cons c cs ih =>
    intro s n
    rcases h : sc.step s c with ⟨s1, code⟩
    cases code <;> simp only [List.cons_append, scanBytes, h] <;>
      first
        | exact ih _ _
        | (rcases h2 : sc.endValue s1 ' ' with ⟨s2, code2⟩
           cases code2 <;> first | rfl | exact ih _ _)

/-- The scan never counts more bytes than it was given. -/
theorem scanBytes_bound {S : Type} (sc : Scanner S) (chunk : List Char) :
    ∀ (s : S) (n : Nat),
      (∀ k, scanBytes sc s n chunk = .done k → k ≤ n + chunk.length) ∧
      (∀ s1 n1, scanBytes sc s n chunk = .more s1 n1 → n1 = n + chunk.length) := by
  induction chunk with
  | nil =>
    intro s n
    constructor
    · intro k h; simp [scanBytes] at h
    · intro s1 n1 h
      simp only [scanBytes, Scanned.more.injEq] at h
      simp [h.2]
  | cons c cs ih =>
    intro s n
    have step : ∀ s2 : S,
        (∀ k, scanBytes sc s2 (n + 1) cs = .done k → k ≤ n + (c :: cs).length) ∧
        (∀ s1 n1, scanBytes sc s2 (n + 1) cs = .more s1 n1 → n1 = n + (c :: cs).length) := by
      intro s2
      obtain ⟨h1, h2⟩ := ih s2 (n + 1)
      constructor
      · intro k hk
        have := h1 k hk
        simp only [List.length_cons]
        omega
      · intro s1 n1 hk
        have := h2 s1 n1 hk
        simp only [List.length_cons]
        omega
    rcases h : sc.step s c with ⟨s1, code⟩
    cases code <;> simp only [scanBytes, h]
    case scanEnd =>
      constructor
      · intro k hk
        simp only [Scanned.done.injEq] at hk
        omega
      · intro s1 n1 hk
        cases hk
    case scanError =>
      constructor
      · intro k hk
        cases hk
      · intro s1 n1 hk
        cases hk
    case scanEndObject =>
      rcases h2 : sc.endValue s1 ' ' with ⟨s2, code2⟩
      cases code2 <;> simp only [] <;> first
        | exact step s2
        | (constructor
           · intro k hk
             simp only [Scanned.done.injEq] at hk
             simp only [List.length_cons]
             omega
           · intro s1 n1 hk
             cases hk)
    case scanEndArray =>
      rcases h2 : sc.endValue s1 ' ' with ⟨s2, code2⟩
      cases code2 <;> simp only [] <;> first
        | exact step s2
        | (constructor
           · intro k hk
             simp only [Scanned.done.injEq] at hk
             simp only [List.length_cons]
             omega
           · intro s1 n1 hk
             cases hk)
    all_goals exact step s1

/-- The read loop on a stream of one read. -/
theorem readValue_single {S : Type} (sc : Scanner S) (s : S) (n : Nat) (buf chunk : List Char) :
    readValue sc s n buf [chunk] none =
      match scanBytes sc s n chunk with
      | .done k => .ok (k, buf ++ chunk)
      | .fail e => .error e
      | .more s1 n1 => readValue sc s1 n1 (buf ++ chunk) [] none := by
  simp only [readValue]

/-- The value the read loop finds on a stream that ends cleanly does not depend on how the
stream is cut into reads. -/
theorem readValue_flatten {S : Type} (sc : Scanner S) (chunks : List (List Char)) :
    ∀ (s : S) (n : Nat) (buf : List Char), n ≤ buf.length →
      valueBytes (readValue sc s n buf chunks none) =
        valueBytes (readValue sc s n buf [chunks.flatten] none) := by
  induction chunks with
  | nil =>
    intro s n buf _
    rw [readValue_single]
    simp [scanBytes]
  | cons chunk rest ih =>
    intro s n buf hn
    have hb := scanBytes_bound sc chunk s n
    rw [readValue_single, List.flatten_cons, scanBytes_append]
    rw [readValue]
    cases h : scanBytes sc s n chunk with
    | done k =>
      have hk : k ≤ n + chunk.length := hb.1 k h
      simp only [valueBytes]
      congr 1
      have ht : List.take k (buf ++ chunk ++ rest.flatten) = List.take k (buf ++ chunk) :=
        List.take_append_of_le_length (by simp only [List.length_append]; omega)
      rw [← List.append_assoc, ht]
    | fail e => rfl
    | more s1 n1 =>
      have hn1 : n1 = n + chunk.length := hb.2 s1 n1 h
      simp only []
      rw [ih s1 n1 (buf ++ chunk) (by simp; omega), readValue_single]
      cases scanBytes sc s1 n1 rest.flatten <;> simp [List.append_assoc]

/-- The decoder unmarshals the bytes of the value the read loop found. -/
theorem decode_eq {S T : Type} (env : Env S T) (body : Body) (target : T) :
    Decode env body target =
      match valueBytes (readValue env.scanner env.scanner.reset 0 [] body.chunks body.failure) with
      | .error e => (target, some e)
      | .ok data => env.unmarshal data target := by
  unfold Decode valueBytes
  cases readValue env.scanner env.scanner.reset 0 [] body.chunks body.failure <;> rfl

/-- Decoding the replayed bytes of a cleanly ending body is decoding the body. -/
theorem decode_replay {S T : Type} (env : Env S T) (body : Body) (target : T)
    (h : body.failure = none) :
    Decode env (replay body.chunks.flatten) target = Decode env body target := by
  rw [decode_eq, decode_eq, h]
  simp only [replay]
  rw [readValue_flatten env.scanner body.chunks _ 0 [] (Nat.le_refl _)]

/-! ## `Call` -/

/-- The result of `Call` when the exchange fails. -/
theorem call_fail {S T : Type} (env : Env S T) (c : VOIPClient) (req : Request) (t : T)
    (r : Option Response) (e : GoError) (h : env.transport req = .fail r e) :
    (Call env c req t).err = some e ∧ (Call env c req t).resp = r ∧
      (Call env c req t).target = t := by
  simp [Call, h]

/-- The decode step when decoding succeeds. -/
theorem decodeInto_ok {S T : Type} (env : Env S T) (resp : Response) (body : Body) (t t1 : T)
    (log : List String) (h : Decode env body t = (t1, none)) :
    decodeInto env resp body t log = ⟨some resp, none, t1, log⟩ := by
  simp [decodeInto, h]

/-- The decode step when decoding fails. -/
theorem decodeInto_error {S T : Type} (env : Env S T) (resp : Response) (body : Body)
    (t t1 : T) (e : GoError) (log : List String) (h : Decode env body t = (t1, some e)) :
    decodeInto env resp body t log = ⟨none, some e, t1, log⟩ := by
  simp [decodeInto, h]

/-- The decode step returns the response and no error, or an error and no response. -/
theorem decodeInto_cases {S T : Type} (env : Env S T) (resp : Response) (body : Body) (t : T)
    (log : List String) :
    ((decodeInto env resp body t log).err = none ∧
        (decodeInto env resp body t log).resp = some resp) ∨
      (∃ e, (decodeInto env resp body t log).err = some e ∧
        (decodeInto env resp body t log).resp = none) := by
  rcases h : Decode env body t with ⟨t1, _ | e⟩
  · left
    rw [decodeInto_ok env resp body t t1 log h]
    exact ⟨rfl, rfl⟩
  · right
    rw [decodeInto_error env resp body t t1 e log h]
    exact ⟨e, rfl, rfl⟩

/-- After a completed exchange `Call` returns the response and no error, or an error and no
response. -/
theorem call_ok_cases {S T : Type} (env : Env S T) (c : VOIPClient) (req : Request) (t : T)
    (resp : Response) (h : env.transport req = .ok resp) :
    ((Call env c req t).err = none ∧ (Call env c req t).resp = some resp) ∨
      (∃ e, (Call env c req t).err = some e ∧ (Call env c req t).resp = none) := by
  cases hd : c.Debug with
  | false =>
    simp only [Call, h, hd, Bool.false_eq_true, if_false]
    exact decodeInto_cases env resp resp.Body t _
  | true =>
    simp only [Call, h, hd, if_true, ReadAll]
    cases hf : resp.Body.failure with
    | some e => exact Or.inr ⟨e, rfl, rfl⟩
    | none => exact decodeInto_cases env resp _ t _

/-- After a completed exchange with a body that debug mode can read to its end, `Call` returns
what the decoder returns. -/
theorem call_decode {S T : Type} (env : Env S T) (c : VOIPClient) (req : Request) (t : T)
    (resp : Response) (h : env.transport req = .ok resp)
    (hclean : c.Debug = true → resp.Body.failure = none) :
    (Call env c req t).err = (Decode env resp.Body t).2 ∧
    (Call env c req t).target = (Decode env resp.Body t).1 ∧
    (Call env c req t).resp = if (Decode env resp.Body t).2 = none then some resp else none := by
  cases hd : c.Debug with
  | false =>
    simp only [Call, h, hd, Bool.false_eq_true, if_false]
    rcases h2 : Decode env resp.Body t with ⟨t1, _ | e⟩
    · rw [decodeInto_ok env resp _ t t1 _ h2]
      simp
    · rw [decodeInto_error env resp _ t t1 e _ h2]
      simp
  | true =>
    have hf := hclean hd
    simp only [Call, h, hd, if_true, ReadAll, hf]
    rcases h2 : Decode env resp.Body t with ⟨t1, _ | e⟩
    · rw [decodeInto_ok env resp _ t t1 _ (by rw [decode_replay env _ t hf]; exact h2)]
      simp
    · rw [decodeInto_error env resp _ t t1 e _ (by rw [decode_replay env _ t hf]; exact h2)]
      simp

/-- What `Post` does once the body was written and the request was built. -/
theorem post_sent {S T : Type} (env : Env S T) (c : VOIPClient) (method : String)
    (entity : Payload) (respStruct : T) (w : Writer) (p0 : Request)
    (hw : WriteStruct env.toLowerRune env.refuse (postHead env c method) entity
      = (w, .returned none))
    (hp : NewRequest env "POST" c.URL (some ⟨env.boundary, w.fields⟩) = .ok p0) :
    Post env c method entity respStruct =
      ⟨statusGate env (Call env c
          (p0.setHeader "Content-Type" ("multipart/form-data; boundary=" ++ env.boundary))
          respStruct),
        (Call env c
          (p0.setHeader "Content-Type" ("multipart/form-data; boundary=" ++ env.boundary))
          respStruct).target,
        [p0.setHeader "Content-Type" ("multipart/form-data; boundary=" ++ env.boundary)],
        (Call env c
          (p0.setHeader "Content-Type" ("multipart/form-data; boundary=" ++ env.boundary))
          respStruct).log⟩ := by
  simp only [Post, hw, hp]

/-- The gate returns the error of `Call`. -/
theorem statusGate_error {S T : Type} (env : Env S T) (r : CallResult T) (e : GoError)
    (h : r.err = some e) : statusGate env r = .returned (some e) := by
  simp [statusGate, h]

/-- The gate turns a status code other than 200 into an error with the status text. -/
theorem statusGate_status {S T : Type} (env : Env S T) (r : CallResult T) (resp : Response)
    (he : r.err = none) (hr : r.resp = some resp) (hs : resp.StatusCode ≠ 200) :
    statusGate env r = .returned (some (errorsNew resp.Status)) := by
  simp [statusGate, he, hr, hs]

/-- The gate on status code 200. -/
theorem statusGate_ok {S T : Type} (env : Env S T) (r : CallResult T) (resp : Response)
    (he : r.err = none) (hr : r.resp = some resp) (hs : resp.StatusCode = 200) :
    statusGate env r =
      match env.getStatus with
      | none => .returned none
      | some getStatus =>
        if getStatus r.target = "success" then .returned none
        else .returned (some (errorsNew (getStatus r.target))) := by
  simp only [statusGate, he, hr, hs]
  cases env.getStatus with
  | none => simp
  | some g => by_cases hg : g r.target = "success" <;> simp [hg]

/-- When `Call` reports no error it returns the response of the transport. -/
theorem call_resp_of_ok {S T : Type} (env : Env S T) (c : VOIPClient) (req : Request) (t : T)
    (resp : Response) (h : env.transport req = .ok resp)
    (he : (Call env c req t).err = none) : (Call env c req t).resp = some resp := by
  rcases call_ok_cases env c req t resp h with h1 | ⟨e, h1, _⟩
  · exact h1.2
  · rw [he] at h1
    cases h1

/-! ## The status gate of `Get` and `Post` -/

/-- C1, at a 404 response whose body is the text `Not Found`: the body does not decode, and
`Get` returns the decoder's error, not the status text `404 Not Found`. -/
theorem get_not_found_body :
    (server 404 "404 Not Found" "Not Found" none
        ((demoGet "api_password=s3cret&api_username=joe&method=getBalance").setHeader
          "Content-Type" "application/json")
      = .ok ⟨404, "404 Not Found", ⟨["Not Found".data], none⟩⟩) ∧
    (Get (demoEnv (server 404 "404 Not Found" "Not Found" none) buffer) (demoClient false)
        "getBalance" (some ∅) (⟨""⟩ : BaseResp)).run.sent
      = [(demoGet "api_password=s3cret&api_username=joe&method=getBalance").setHeader
          "Content-Type" "application/json"] ∧
    (Get (demoEnv (server 404 "404 Not Found" "Not Found" none) buffer) (demoClient false)
        "getBalance" (some ∅) (⟨""⟩ : BaseResp)).run.outcome
      = .returned (some ⟨"invalid character \x27N\x27 looking for beginning of value"⟩) ∧
    (Get (demoEnv (server 404 "404 Not Found" "Not Found" none) buffer) (demoClient false)
        "getBalance" (some ∅) (⟨""⟩ : BaseResp)).run.outcome
      ≠ .returned (some (errorsNew "404 Not Found")) := by
  refine ⟨rfl, rfl, rfl, ?_⟩
  decide

/-- C1 as amended: when the exchange completes with a status code other than 200 and the
body decodes into the target (`Call` reports no error), `Get` and `Post` return an error
whose message is the HTTP status text, whatever status the decoded target reports. -/
theorem status_text_error {S T : Type} (env : Env S T) (c : VOIPClient) (method : String)
    (v : Values) (entity : T) (u : URL) (r0 : Request) (payload : Payload) (w : Writer)
    (p0 : Request) (resp : Response) (hcode : resp.StatusCode ≠ 200) :
    (env.parseURL c.URL = .ok u →
      NewRequest env "GET" (env.urlString (getURL env c method v u)) none = .ok r0 →
      env.transport (r0.setHeader "Content-Type" "application/json") = .ok resp →
      (Call env c (r0.setHeader "Content-Type" "application/json") entity).err = none →
      (Get env c method (some v) entity).run.outcome
        = .returned (some (errorsNew resp.Status))) ∧
    (WriteStruct env.toLowerRune env.refuse (postHead env c method) payload
        = (w, .returned none) →
      NewRequest env "POST" c.URL (some ⟨env.boundary, w.fields⟩) = .ok p0 →
      env.transport
        (p0.setHeader "Content-Type" ("multipart/form-data; boundary=" ++ env.boundary))
        = .ok resp →
      (Call env c
        (p0.setHeader "Content-Type" ("multipart/form-data; boundary=" ++ env.boundary))
        entity).err = none →
      (Post env c method payload entity).outcome
        = .returned (some (errorsNew resp.Status))) := by
  constructor
  · intro hu hr ht he
    rw [get_sent env c method v entity u r0 hu hr]
    exact statusGate_status env _ resp he (call_resp_of_ok env c _ entity resp ht he) hcode
  · intro hw hp ht he
    rw [post_sent env c method payload entity w p0 hw hp]
    exact statusGate_status env _ resp he (call_resp_of_ok env c _ entity resp ht he) hcode

/-- C1 as amended, on the example of the specification: status 500 with the body
`{"status":"success"}` makes `Get` and `Post` fail with `500 Internal Server Error`. -/
theorem status_text_error_witness :
    (Get (demoEnv (server 500 "500 Internal Server Error" (statusBody "success") none) buffer)
        (demoClient false) "getBalance" (some ∅) (⟨""⟩ : BaseResp)).run.outcome
      = .returned (some ⟨"500 Internal Server Error"⟩) ∧
    (Post (demoEnv (server 500 "500 Internal Server Error" (statusBody "success") none) buffer)
        (demoClient false) "create_user" (.struct [⟨"Name", "", .str "bob"⟩])
        (⟨""⟩ : BaseResp)).outcome
      = .returned (some ⟨"500 Internal Server Error"⟩) :=
  have h := status_text_error
    (demoEnv (server 500 "500 Internal Server Error" (statusBody "success") none) buffer)
    (demoClient false) "getBalance" ∅ (⟨""⟩ : BaseResp) ⟨"https://voip.ms/api/v1/rest.php", ""⟩
    (demoGet "api_password=s3cret&api_username=joe&method=getBalance")
    (.struct []) ⟨[("api_username", "joe"), ("api_password", "s3cret"),
      ("method", "getBalance")], 3⟩
    (demoPost "getBalance" [])
    ⟨500, "500 Internal Server Error", ⟨[(statusBody "success").data], none⟩⟩ (by decide)
  have h2 := status_text_error
    (demoEnv (server 500 "500 Internal Server Error" (statusBody "success") none) buffer)
    (demoClient false) "create_user" ∅ (⟨""⟩ : BaseResp) ⟨"https://voip.ms/api/v1/rest.php", ""⟩
    (demoGet "api_password=s3cret&api_username=joe&method=getBalance")
    (.struct [⟨"Name", "", .str "bob"⟩]) ⟨[("api_username", "joe"), ("api_password", "s3cret"),
      ("method", "create_user"), ("name", "bob")], 4⟩
    (demoPost "create_user" [("name", "bob")])
    ⟨500, "500 Internal Server Error", ⟨[(statusBody "success").data], none⟩⟩ (by decide)
  ⟨h.1 rfl rfl rfl rfl, h2.2 rfl rfl rfl rfl⟩

/-- C2: when the exchange completes with status code 200 and the body decodes (`Call`
reports no error), `Get` and `Post` return no error if the target has no status capability;
if it has one they return no error exactly when the status it reports is `success`, and
otherwise an error whose message is that status. -/
theorem get_post_status_ok {S T : Type} (env : Env S T) (c : VOIPClient) (method : String)
    (v : Values) (entity : T) (u : URL) (r0 : Request) (payload : Payload) (w : Writer)
    (p0 : Request) (resp : Response) (hcode : resp.StatusCode = 200) :
    (env.parseURL c.URL = .ok u →
      NewRequest env "GET" (env.urlString (getURL env c method v u)) none = .ok r0 →
      env.transport (r0.setHeader "Content-Type" "application/json") = .ok resp →
      (Call env c (r0.setHeader "Content-Type" "application/json") entity).err = none →
      (Get env c method (some v) entity).run.outcome =
        match env.getStatus with
        | none => .returned none
        | some getStatus =>
          if getStatus (Get env c method (some v) entity).run.target = "success" then
            .returned none
          else .returned (some (errorsNew
            (getStatus (Get env c method (some v) entity).run.target)))) ∧
    (WriteStruct env.toLowerRune env.refuse (postHead env c method) payload
        = (w, .returned none) →
      NewRequest env "POST" c.URL (some ⟨env.boundary, w.fields⟩) = .ok p0 →
      env.transport
        (p0.setHeader "Content-Type" ("multipart/form-data; boundary=" ++ env.boundary))
        = .ok resp →
      (Call env c
        (p0.setHeader "Content-Type" ("multipart/form-data; boundary=" ++ env.boundary))
        entity).err = none →
      (Post env c method payload entity).outcome =
        match env.getStatus with
        | none => .returned none
        | some getStatus =>
          if getStatus (Post env c method payload entity).target = "success" then
            .returned none
          else .returned (some (errorsNew
            (getStatus (Post env c method payload entity).target)))) := by
  constructor
  · intro hu hr ht he
    rw [get_sent env c method v entity u r0 hu hr]
    exact statusGate_ok env _ resp he (call_resp_of_ok env c _ entity resp ht he) hcode
  · intro hw hp ht he
    rw [post_sent env c method payload entity w p0 hw hp]
    exact statusGate_ok env _ resp he (call_resp_of_ok env c _ entity resp ht he) hcode

/-- C2 on four responses with status 200: the status `success` gives no error, the status
`invalid_method` gives the error `invalid_method`, an object without status gives the error
with the empty message, and a target without the status capability gives no error. -/
theorem get_post_status_ok_witness :
    (Get (demoEnv (server 200 "200 OK" (statusBody "success") none) buffer)
        (demoClient false) "getBalance" (some ∅) (⟨""⟩ : BaseResp)).run.outcome
      = .returned none ∧
    (Post (demoEnv (server 200 "200 OK" (statusBody "invalid_method") none) buffer)
        (demoClient false) "create_user" (.struct [⟨"Name", "", .str "bob"⟩])
        (⟨""⟩ : BaseResp)).outcome
      = .returned (some ⟨"invalid_method"⟩) ∧
    (Get (demoEnv (server 200 "200 OK" "\x7b\x7d" none) buffer)
        (demoClient false) "getBalance" (some ∅) (⟨""⟩ : BaseResp)).run.outcome
      = .returned (some ⟨""⟩) ∧
    (Get (plainEnv (server 200 "200 OK" (statusBody "failed") none))
        (demoClient false) "getBalance" (some ∅) (⟨""⟩ : BaseResp)).run.outcome
      = .returned none :=
  ⟨(get_post_status_ok (demoEnv (server 200 "200 OK" (statusBody "success") none) buffer)
      (demoClient false) "getBalance" ∅ (⟨""⟩ : BaseResp) ⟨"https://voip.ms/api/v1/rest.php", ""⟩
      (demoGet "api_password=s3cret&api_username=joe&method=getBalance")
      (.struct []) {} (demoPost "getBalance" [])
      ⟨200, "200 OK", ⟨[(statusBody "success").data], none⟩⟩ rfl).1 rfl rfl rfl rfl,
   (get_post_status_ok (demoEnv (server 200 "200 OK" (statusBody "invalid_method") none) buffer)
      (demoClient false) "create_user" ∅ (⟨""⟩ : BaseResp) ⟨"https://voip.ms/api/v1/rest.php", ""⟩
      (demoGet "") (.struct [⟨"Name", "", .str "bob"⟩])
      ⟨[("api_username", "joe"), ("api_password", "s3cret"), ("method", "create_user"),
        ("name", "bob")], 4⟩
      (demoPost "create_user" [("name", "bob")])
      ⟨200, "200 OK", ⟨[(statusBody "invalid_method").data], none⟩⟩ rfl).2 rfl rfl rfl rfl,
   (get_post_status_ok (demoEnv (server 200 "200 OK" "\x7b\x7d" none) buffer)
      (demoClient false) "getBalance" ∅ (⟨""⟩ : BaseResp) ⟨"https://voip.ms/api/v1/rest.php", ""⟩
      (demoGet "api_password=s3cret&api_username=joe&method=getBalance")
      (.struct []) {} (demoPost "getBalance" [])
      ⟨200, "200 OK", ⟨["\x7b\x7d".data], none⟩⟩ rfl).1 rfl rfl rfl rfl,
   (get_post_status_ok (plainEnv (server 200 "200 OK" (statusBody "failed") none))
      (demoClient false) "getBalance" ∅ (⟨""⟩ : BaseResp) ⟨"https://voip.ms/api/v1/rest.php", ""⟩
      (demoGet "api_password=s3cret&api_username=joe&method=getBalance")
      (.struct []) {} (demoPost "getBalance" [])
      ⟨200, "200 OK", ⟨[(statusBody "failed").data], none⟩⟩ rfl).1 rfl rfl rfl rfl⟩

/-! ## Debug mode -/

/-- C6, at a response whose body delivers `{"status":"success"}` and then breaks off with a
read error: without debug `Call` returns the response and the target is decoded, with debug
`Call` returns the read error, no response, and the target is untouched. -/
theorem debug_changes_result :
    (Call (demoEnv (server 200 "200 OK" (statusBody "success") (some ⟨"unexpected EOF"⟩)) buffer)
        (demoClient false) (demoGet "method=getBalance") (⟨""⟩ : BaseResp)).err = none ∧
    (Call (demoEnv (server 200 "200 OK" (statusBody "success") (some ⟨"unexpected EOF"⟩)) buffer)
        (demoClient false) (demoGet "method=getBalance") (⟨""⟩ : BaseResp)).resp
      = some ⟨200, "200 OK", ⟨[(statusBody "success").data], some ⟨"unexpected EOF"⟩⟩⟩ ∧
    (Call (demoEnv (server 200 "200 OK" (statusBody "success") (some ⟨"unexpected EOF"⟩)) buffer)
        (demoClient false) (demoGet "method=getBalance") (⟨""⟩ : BaseResp)).target
      = ⟨"success"⟩ ∧
    (Call (demoEnv (server 200 "200 OK" (statusBody "success") (some ⟨"unexpected EOF"⟩)) buffer)
        (demoClient true) (demoGet "method=getBalance") (⟨""⟩ : BaseResp)).err
      = some ⟨"unexpected EOF"⟩ ∧
    (Call (demoEnv (server 200 "200 OK" (statusBody "success") (some ⟨"unexpected EOF"⟩)) buffer)
        (demoClient true) (demoGet "method=getBalance") (⟨""⟩ : BaseResp)).resp = none ∧
    (Call (demoEnv (server 200 "200 OK" (statusBody "success") (some ⟨"unexpected EOF"⟩)) buffer)
        (demoClient true) (demoGet "method=getBalance") (⟨""⟩ : BaseResp)).target
      = ⟨""⟩ :=
  ⟨rfl, rfl, rfl, rfl, rfl, rfl⟩

/-- C6 as amended: for every request whose response body can be read to its end without a
read error, `Call` with the debug flag returns the same response, the same error and leaves
the same target as `Call` without it. -/
theorem debug_transparent {S T : Type} (env : Env S T) (c : VOIPClient) (req : Request)
    (t : T) (hclean : ∀ resp, env.transport req = .ok resp → resp.Body.failure = none) :
    (Call env { c with Debug := true } req t).resp
      = (Call env { c with Debug := false } req t).resp ∧
    (Call env { c with Debug := true } req t).err
      = (Call env { c with Debug := false } req t).err ∧
    (Call env { c with Debug := true } req t).target
      = (Call env { c with Debug := false } req t).target := by
  cases h : env.transport req with
  | fail r e =>
    have h1 := call_fail env { c with Debug := true } req t r e h
    have h2 := call_fail env { c with Debug := false } req t r e h
    exact ⟨h1.2.1.trans h2.2.1.symm, h1.1.trans h2.1.symm, h1.2.2.trans h2.2.2.symm⟩
  | ok resp =>
    have h1 := call_decode env { c with Debug := true } req t resp h (fun _ => hclean resp h)
    have h2 := call_decode env { c with Debug := false } req t resp h (fun hd => by cases hd)
    exact ⟨h1.2.2.trans h2.2.2.symm, h1.1.trans h2.1.symm, h1.2.1.trans h2.2.1.symm⟩

/-- C6 as amended, on a body that arrives in three reads and ends cleanly: both modes
return the response and decode the status `success`. -/
theorem debug_transparent_witness :
    (Call (demoEnv (fun _ => .ok ⟨200, "200 OK",
          ⟨["\x7b\"sta".data, "tus\":\"succ".data, "ess\"\x7d\n".data], none⟩⟩) buffer)
        { demoClient false with Debug := true } (demoGet "method=getBalance")
        (⟨""⟩ : BaseResp)).target
      = (Call (demoEnv (fun _ => .ok ⟨200, "200 OK",
          ⟨["\x7b\"sta".data, "tus\":\"succ".data, "ess\"\x7d\n".data], none⟩⟩) buffer)
        { demoClient false with Debug := false } (demoGet "method=getBalance")
        (⟨""⟩ : BaseResp)).target ∧
    (Call (demoEnv (fun _ => .ok ⟨200, "200 OK",
          ⟨["\x7b\"sta".data, "tus\":\"succ".data, "ess\"\x7d\n".data], none⟩⟩) buffer)
        { demoClient false with Debug := true } (demoGet "method=getBalance")
        (⟨""⟩ : BaseResp)).target = ⟨"success"⟩ :=
  ⟨(debug_transparent (demoEnv (fun _ => .ok ⟨200, "200 OK",
          ⟨["\x7b\"sta".data, "tus\":\"succ".data, "ess\"\x7d\n".data], none⟩⟩) buffer)
      (demoClient false) (demoGet "method=getBalance") (⟨""⟩ : BaseResp)
      (fun resp h => by cases h; rfl)).2.2, rfl⟩

/-! ## Errors of the exchange and of the decoder -/

/-- C7: when the HTTP exchange fails, `Call` returns the transport's error and the target is
unchanged; when the exchange succeeds and the body does not decode, `Call` returns the
decoder's error and no response; whenever `Call` returns an error after a completed
exchange it returns no response; `Get` and `Post` return the error of `Call` as it is; and
`Call` never reports success without a response, so the status gate of `Get` and `Post`
never reads the status of a missing response. -/
theorem call_errors {S T : Type} (env : Env S T) (c : VOIPClient) (method : String)
    (v : Values) (entity : T) (u : URL) (r0 : Request) (payload : Payload) (w : Writer)
    (p0 : Request) (req : Request) (resp : Response) (e : GoError) :
    (∀ r, env.transport req = .fail r e →
      (Call env c req entity).err = some e ∧ (Call env c req entity).resp = r ∧
      (Call env c req entity).target = entity) ∧
    (∀ t1, env.transport req = .ok resp → (c.Debug = true → resp.Body.failure = none) →
      Decode env resp.Body entity = (t1, some e) →
      (Call env c req entity).err = some e ∧ (Call env c req entity).resp = none) ∧
    (env.transport req = .ok resp → (Call env c req entity).err = some e →
      (Call env c req entity).resp = none) ∧
    (env.parseURL c.URL = .ok u →
      NewRequest env "GET" (env.urlString (getURL env c method v u)) none = .ok r0 →
      (Call env c (r0.setHeader "Content-Type" "application/json") entity).err = some e →
      (Get env c method (some v) entity).run.outcome = .returned (some e)) ∧
    (WriteStruct env.toLowerRune env.refuse (postHead env c method) payload
        = (w, .returned none) →
      NewRequest env "POST" c.URL (some ⟨env.boundary, w.fields⟩) = .ok p0 →
      (Call env c
        (p0.setHeader "Content-Type" ("multipart/form-data; boundary=" ++ env.boundary))
        entity).err = some e →
      (Post env c method payload entity).outcome = .returned (some e)) ∧
    ((Call env c req entity).err = none → ∃ r, (Call env c req entity).resp = some r) ∧
    statusGate env (Call env c req entity) ≠ .panicked nilDeref := by
  have hresp : (Call env c req entity).err = none → ∃ r, (Call env c req entity).resp = some r := by
    intro he
    cases h : env.transport req with
    | fail r e2 =>
      rw [(call_fail env c req entity r e2 h).1] at he
      cases he
    | ok resp2 => exact ⟨resp2, call_resp_of_ok env c req entity resp2 h he⟩
  refine ⟨fun r h => call_fail env c req entity r e h, ?_, ?_, ?_, ?_, hresp, ?_⟩
  · intro t1 h hclean hd
    have hc := call_decode env c req entity resp h hclean
    rw [hd] at hc
    exact ⟨hc.1, by simpa using hc.2.2⟩
  · intro h he
    rcases call_ok_cases env c req entity resp h with h1 | ⟨e2, _, h2⟩
    · rw [h1.1] at he
      cases he
    · exact h2
  · intro hu hr he
    rw [get_sent env c method v entity u r0 hu hr]
    exact statusGate_error env _ e he
  · intro hw hp he
    rw [post_sent env c method payload entity w p0 hw hp]
    exact statusGate_error env _ e he
  · cases he : (Call env c req entity).err with
    | some e2 =>
      rw [statusGate_error env _ e2 he]
      intro h
      cases h
    | none =>
      obtain ⟨r, hr⟩ := hresp he
      unfold statusGate
      simp only [he, hr]
      split
      · intro h
        cases h
      · split
        · split <;> (intro h; cases h)
        · intro h
          cases h

/-- C7 on a server that cannot be reached and on a server that answers 200 with the text
`Not Found`: `Call` and `Get` return the transport's error, the target unchanged; `Call`
returns the decoder's error and no response, and `Post` returns that error. -/
theorem call_errors_witness :
    ((Call (demoEnv deadServer buffer) (demoClient true) (demoGet "method=getBalance")
        (⟨"old"⟩ : BaseResp)).err = some ⟨"dial tcp: connection refused"⟩ ∧
      (Call (demoEnv deadServer buffer) (demoClient true) (demoGet "method=getBalance")
        (⟨"old"⟩ : BaseResp)).resp = none ∧
      (Call (demoEnv deadServer buffer) (demoClient true) (demoGet "method=getBalance")
        (⟨"old"⟩ : BaseResp)).target = ⟨"old"⟩) ∧
    (Get (demoEnv deadServer buffer) (demoClient true) "getBalance" (some ∅)
        (⟨"old"⟩ : BaseResp)).run.outcome
      = .returned (some ⟨"dial tcp: connection refused"⟩) ∧
    ((Call (demoEnv (server 200 "200 OK" "Not Found" none) buffer) (demoClient true)
        (demoGet "method=getBalance") (⟨"old"⟩ : BaseResp)).err
        = some ⟨"invalid character \x27N\x27 looking for beginning of value"⟩ ∧
      (Call (demoEnv (server 200 "200 OK" "Not Found" none) buffer) (demoClient true)
        (demoGet "method=getBalance") (⟨"old"⟩ : BaseResp)).resp = none) ∧
    (Post (demoEnv (server 200 "200 OK" "Not Found" none) buffer) (demoClient true)
        "create_user" (.struct [⟨"Name", "", .str "bob"⟩]) (⟨"old"⟩ : BaseResp)).outcome
      = .returned (some ⟨"invalid character \x27N\x27 looking for beginning of value"⟩) :=
  have h1 := call_errors (demoEnv deadServer buffer) (demoClient true) "getBalance" ∅
    (⟨"old"⟩ : BaseResp) ⟨"https://voip.ms/api/v1/rest.php", ""⟩
    (demoGet "api_password=s3cret&api_username=joe&method=getBalance")
    (.struct []) {} (demoPost "getBalance" []) (demoGet "method=getBalance")
    ⟨200, "200 OK", ⟨[], none⟩⟩ ⟨"dial tcp: connection refused"⟩
  have h2 := call_errors (demoEnv (server 200 "200 OK" "Not Found" none) buffer)
    (demoClient true) "create_user" ∅
    (⟨"old"⟩ : BaseResp) ⟨"https://voip.ms/api/v1/rest.php", ""⟩
    (demoGet "api_password=s3cret&api_username=joe&method=create_user")
    (.struct [⟨"Name", "", .str "bob"⟩])
    ⟨[("api_username", "joe"), ("api_password", "s3cret"), ("method", "create_user"),
      ("name", "bob")], 4⟩
    (demoPost "create_user" [("name", "bob")]) (demoGet "method=getBalance")
    ⟨200, "200 OK", ⟨["Not Found".data], none⟩⟩
    ⟨"invalid character \x27N\x27 looking for beginning of value"⟩
  ⟨h1.1 none rfl, h1.2.2.2.1 rfl rfl rfl, h2.2.1 ⟨"old"⟩ rfl (fun _ => rfl) rfl,
    h2.2.2.2.2.1 rfl rfl rfl⟩

/-! ## A malformed endpoint -/

/-- When the endpoint URL cannot be parsed, `Get` returns the parse error to its caller
(lines 88-91), hands no request to the transport and leaves parameters and target as they
were. -/
theorem get_parse_error {S T : Type} (env : Env S T) (c : VOIPClient) (method : String)
    (values : Option Values) (entity : T) (e : GoError)
    (h : env.parseURL c.URL = .error e) :
    (Get env c method values entity).run.outcome = .returned (some e) ∧
    (Get env c method values entity).run.sent = [] ∧
    (Get env c method values entity).values = values ∧
    (Get env c method values entity).run.target = entity := by
  simp [Get, h]

/-- When `http.NewRequest` fails, `Post` panics on the nil request of line 139 and hands
nothing to the transport: the error assigned on line 138 is never tested. -/
theorem post_newRequest_error {S T : Type} (env : Env S T) (c : VOIPClient) (method : String)
    (entity : Payload) (respStruct : T) (w : Writer) (e : GoError)
    (hw : WriteStruct env.toLowerRune env.refuse (postHead env c method) entity
      = (w, .returned none))
    (hp : NewRequest env "POST" c.URL (some ⟨env.boundary, w.fields⟩) = .error e) :
    (Post env c method entity respStruct).outcome = .panicked nilDeref ∧
    (Post env c method entity respStruct).sent = [] := by
  simp [Post, hw, hp]

/-- C9, at a client whose endpoint `http://voip ms/api` has a blank in its host: the URL does
not parse; `Get` returns the parse error and sends nothing, as the claim says; `Post` builds
its body, gets no request from `http.NewRequest`, sends nothing, and panics on the nil
request instead of returning an error. -/
theorem post_malformed_endpoint :
    demoParseURL "http://voip ms/api"
      = .error ⟨"parse \"http://voip ms/api\": invalid character \" \" in host name"⟩ ∧
    (Get (demoEnv (server 200 "200 OK" (statusBody "success") none) buffer)
        ⟨"http://voip ms/api", "joe", "s3cret", false⟩ "getBalance" (some ∅)
        (⟨""⟩ : BaseResp)).run.outcome
      = .returned
          (some ⟨"parse \"http://voip ms/api\": invalid character \" \" in host name"⟩) ∧
    (Get (demoEnv (server 200 "200 OK" (statusBody "success") none) buffer)
        ⟨"http://voip ms/api", "joe", "s3cret", false⟩ "getBalance" (some ∅)
        (⟨""⟩ : BaseResp)).run.sent = [] ∧
    (Post (demoEnv (server 200 "200 OK" (statusBody "success") none) buffer)
        ⟨"http://voip ms/api", "joe", "s3cret", false⟩ "create_user"
        (.struct [⟨"Name", "", .str "bob"⟩]) (⟨""⟩ : BaseResp)).outcome
      = .panicked nilDeref ∧
    (Post (demoEnv (server 200 "200 OK" (statusBody "success") none) buffer)
        ⟨"http://voip ms/api", "joe", "s3cret", false⟩ "create_user"
        (.struct [⟨"Name", "", .str "bob"⟩]) (⟨""⟩ : BaseResp)).sent = [] ∧
    ¬ ∃ e, (Post (demoEnv (server 200 "200 OK" (statusBody "success") none) buffer)
        ⟨"http://voip ms/api", "joe", "s3cret", false⟩ "create_user"
        (.struct [⟨"Name", "", .str "bob"⟩]) (⟨""⟩ : BaseResp)).outcome
      = .returned (some e) := by
  refine ⟨rfl, rfl, rfl, rfl, rfl, ?_⟩
  rintro ⟨e, h⟩
  cases h

end GoVoipms
